import Mathlib

/-!
# Verification of the librairian-web audio-generation pipeline

A shallow embedding, in Lean 4, of the audio-generation subsystem of the
`librairian-web` repository:

* `src/server/audio-generation/investigative-report.ts`
* `src/server/audio-generation/podcast.ts`
* `src/server/audio-generation/config.ts` (and the text-to-speech module)
* `src/server/audio-generation/text-generator.ts`
* `src/client/app/api/generate/media/route.ts`
* `src/client/app/api/generate/investigative-report/route.ts`

JavaScript strings are modelled by Lean `String` (lengths are counted in
code points rather than UTF-16 code units; every string manipulated by the
embedded code is ASCII, where the two notions agree).  JavaScript numbers
are modelled by `ℚ` where fractional values occur and by `ℕ`/`ℤ` where the
source only ever produces integers; the source never exercises binary
floating-point rounding (all the arithmetic is on small integers and the
fixed literals 0.75, 0.8 and 2.5).  Filesystem state is modelled by a
predicate `String → Bool` giving the files that exist when a run starts,
and the external text-generation / speech-synthesis services are modelled
by oracles supplying the text returned by each successive call.  Effectful
steps record an explicit trace of the external calls they perform.
-/

namespace Librairian

/-! ## List and character utilities -/

/-- Boolean prefix test on lists, modelling JavaScript
`String.prototype.startsWith` when applied to the underlying character
sequences. -/
def isPre {α : Type} [DecidableEq α] : List α → List α → Bool
  | [], _ => true
  | _ :: _, [] => false
  | a :: as, b :: bs => a = b && isPre as bs

theorem isPre_refl {α : Type} [DecidableEq α] (l : List α) : isPre l l = true := by
  induction l with
  | nil => rfl
  | cons a as ih => simp [isPre, ih]

theorem isPre_append {α : Type} [DecidableEq α] (l t : List α) :
    isPre l (l ++ t) = true := by
  induction l with
  | nil => rfl
  | cons a as ih => simp [isPre, ih]

theorem length_le_of_isPre {α : Type} [DecidableEq α] :
    ∀ l m : List α, isPre l m = true → l.length ≤ m.length := by
  intro l
  induction l with
  | nil => intro m _; simp
  | cons a as ih =>
    intro m h
    cases m with
    | nil => simp [isPre] at h
    | cons b bs =>
      simp only [isPre, Bool.and_eq_true, decide_eq_true_eq] at h
      simpa using ih bs h.2

/-- Membership of a character in a list of characters, as a `Bool`. -/
def hasChar (c : Char) (l : List Char) : Bool := l.contains c

/-! ## Whitespace splitting (JavaScript `text.split(/\s+/)`)

`String.prototype.split` with the pattern `/\s+/` cuts the string at every
maximal run of whitespace.  A run at the very start (or very end) of the
string contributes an empty leading (or trailing) element, and the empty
string splits to the one-element array `[""]`.  Only the *length* of the
resulting array is consumed by the embedded code, but we model the split
itself. -/

/-- Characters matched by the JavaScript `\s` class (the ASCII portion;
the strings fed to the splitter by this code base are ASCII). -/
def isJsWhitespace (c : Char) : Bool :=
  c = ' ' || c = '\t' || c = '\n' || c = '\r' || c = '\x0b' || c = '\x0c'

/-- `jsSplitWhitespaceAux skipping cs acc` splits `cs` at maximal
whitespace runs.  `acc` holds the (reversed) characters of the segment
currently being read; `skipping` records that the previous character
belonged to a whitespace run whose segment boundary has already been
emitted, so further whitespace extends the same run. -/
def jsSplitWhitespaceAux : Bool → List Char → List Char → List (List Char)
  | _, [], acc => [acc.reverse]
  | skipping, c :: cs, acc =>
    if isJsWhitespace c then
      if skipping then jsSplitWhitespaceAux true cs acc
      else acc.reverse :: jsSplitWhitespaceAux true cs []
    else jsSplitWhitespaceAux false cs (c :: acc)

/-- `text.split(/\s+/)` on the character list of a string. -/
def jsSplitWhitespace (text : String) : List (List Char) :=
  jsSplitWhitespaceAux false text.data []

/-- The word count used by `estimateAudioDuration`:
`text.split(/\s+/).length`. -/
def countWords (text : String) : ℕ :=
  (jsSplitWhitespace text).length

example : countWords "a b c" = 3 := by decide
example : countWords "" = 1 := by decide
example : countWords " a " = 3 := by decide

/-! ## `estimateAudioDuration` (text-to-speech module)

```js
export function estimateAudioDuration(text: string): number {
  const words = text.split(/\s+/).length;
  const wordsPerSecond = 2.5; // 150 words per minute
  return Math.ceil(words / wordsPerSecond);
}
``` -/

/-- `estimateAudioDuration` from the text-to-speech module: the word count
divided by the assumed speaking rate of 2.5 words per second, rounded up
(`Math.ceil`).  `⌈w / 2.5⌉ = ⌈2w / 5⌉ = (2w + 4) / 5` in natural-number
division; `estimateAudioDuration_eq_ceil` below proves this expression
equal to the exact rational ceiling, so the definition is kernel-computable
while remaining the function the source computes. -/
def estimateAudioDuration (text : String) : ℕ :=
  (2 * countWords text + 4) / 5

/-- The spec sentence reads the heuristic as plain division by 2.5,
without the `Math.ceil` that the source applies.  This definition follows
the spec wording, to be compared with `estimateAudioDuration`. -/
def specEstimateAudioDuration (text : String) : ℚ :=
  (countWords text : ℚ) / (2.5 : ℚ)

/-- The computable definition agrees with `Math.ceil (words / 2.5)`. -/
theorem estimateAudioDuration_eq_ceil (text : String) :
    (estimateAudioDuration text : ℤ) = ⌈(countWords text : ℚ) / (2.5 : ℚ)⌉ := by
  unfold estimateAudioDuration
  set w := countWords text with hw
  have hn : 5 * ((2 * w + 4) / 5) ≤ 2 * w + 4 ∧ 2 * w ≤ 5 * ((2 * w + 4) / 5) := by
    omega
  set n : ℕ := (2 * w + 4) / 5 with hndef
  symm
  rw [Int.ceil_eq_iff]
  have h1 : (5 * (n : ℚ)) ≤ 2 * w + 4 := by exact_mod_cast hn.1
  have h2 : (2 * (w : ℚ)) ≤ 5 * n := by exact_mod_cast hn.2
  rw [show (2.5 : ℚ) = 5 / 2 by norm_num]
  push_cast
  constructor
  · rw [lt_div_iff₀ (by norm_num : (0 : ℚ) < 5 / 2)]
    linarith
  · rw [div_le_iff₀ (by norm_num : (0 : ℚ) < 5 / 2)]
    linarith

example : estimateAudioDuration "a b c" = 2 := by decide
example : estimateAudioDuration "" = 1 := by decide

/-! ## POSIX path model (Node `path.basename` / `path.join` / `path.resolve`)

The media route manipulates POSIX paths through Node's `path` module.  We
model paths as strings, working on the underlying character lists.  All
paths handled by the route are rooted at the absolute audio directory, so
`path.join` and `path.resolve` are modelled for absolute-first-argument
inputs, where both amount to segment normalization (drop empty and `.`
segments, let `..` pop the previous segment, `..` at the root is
discarded). -/

/-- Split a character list at every `/`.  Empty segments are kept, as in
`"a//b".split("/")`. -/
def splitSlashAux : List Char → List Char → List (List Char)
  | [], acc => [acc.reverse]
  | c :: cs, acc =>
    if c = '/' then acc.reverse :: splitSlashAux cs []
    else splitSlashAux cs (c :: acc)

/-- Split a path into its `/`-separated segments. -/
def splitSlash (cs : List Char) : List (List Char) :=
  splitSlashAux cs []

/-- Normalization stack: `""` and `"."` segments are dropped, `".."` pops
the last stacked segment (doing nothing at the root), anything else is
pushed. -/
def normStack : List (List Char) → List (List Char) → List (List Char)
  | [], stack => stack
  | s :: rest, stack =>
    if s = [] ∨ s = ['.'] then normStack rest stack
    else if s = ['.', '.'] then normStack rest stack.dropLast
    else normStack rest (stack ++ [s])

/-- Join segments with `/` separators. -/
def joinSegs : List (List Char) → List Char
  | [] => []
  | [s] => s
  | s :: ss => s ++ '/' :: joinSegs ss

/-- Render a normalized segment stack as an absolute path. -/
def renderAbs : List (List Char) → List Char
  | [] => ['/']
  | segs => '/' :: joinSegs segs

/-- Normalize an absolute path. -/
def absNorm (cs : List Char) : List Char :=
  renderAbs (normStack (splitSlash cs) [])

/-- Node `path.resolve` on an already-absolute path: pure normalization. -/
def pathResolve (p : String) : String :=
  ⟨absNorm p.data⟩

/-- Node `path.join a b` where `a` is absolute: concatenate with a
separator and normalize. -/
def pathJoin (a b : String) : String :=
  ⟨absNorm (a.data ++ '/' :: b.data)⟩

/-- Node `path.basename`: the last non-empty `/`-separated segment; `"/"`
for the root itself and `""` for the empty path. -/
def pathBasename (p : String) : String :=
  match ((splitSlash p.data).filter (fun s => ¬ s.isEmpty)).getLast? with
  | some s => ⟨s⟩
  | none => if p.data.head? = some '/' then "/" else ""

/-- JavaScript `String.prototype.startsWith` (also the semantics of
`String.prototype.startsWith` in Node). -/
def jsStartsWith (s pre : String) : Bool :=
  isPre pre.data s.data

/-- Node `path.extname`: the suffix of the basename starting at its last
`.`, or `""` when the basename has no dot or only a leading dot.  The
auxiliary scans the reversed basename. -/
def extnameAux : List Char → List Char → List Char
  | [], _ => []
  | '.' :: rest, acc => if rest.isEmpty then [] else '.' :: acc
  | c :: rest, acc => extnameAux rest (c :: acc)

/-- Node `path.extname`. -/
def pathExtname (p : String) : String :=
  ⟨extnameAux (pathBasename p).data.reverse []⟩

/-- ASCII lower-casing, modelling `String.prototype.toLowerCase` on the
ASCII strings this code handles. -/
def jsToLower (s : String) : String :=
  ⟨s.data.map Char.toLower⟩

example : pathBasename "../../etc/passwd" = "passwd" := by decide
example : pathBasename ".." = ".." := by decide
example : pathBasename "/foo/bar/" = "bar" := by decide
example : pathJoin "/app/generated-audio" "x.mp3" = "/app/generated-audio/x.mp3" := by decide
example : pathJoin "/app/generated-audio" ".." = "/app" := by decide
example : pathExtname "a.mp3" = ".mp3" := by decide
example : pathExtname ".bashrc" = "" := by decide

/-! ## Data model (`types.ts`) -/

/-- `Voice` from `types.ts`.  The stability and similarity parameters are
opaque request payload; they are carried but never computed on. -/
structure Voice where
  id : String
  name : String
  voiceId : String
  stability : ℚ
  similarityBoost : ℚ

/-- `Personality` from `types.ts`. -/
structure Personality where
  name : String
  aliasName : String
  tone : String
  humorStyle : String
  interests : List String
  voice : Voice
  openingLines : List String
  closingLines : List String

/-- `DialogueTurn` from `types.ts` (the optional `audioFile` field is
never set by the generators, which keep a separate `audioFiles` list). -/
structure DialogueTurn where
  speaker : String
  text : String
deriving DecidableEq

/-- `FalseRedactions` from `types.ts` (the fields the summary builder
reads).  Absent optional fields are `none` / `[]`. -/
structure FalseRedactions where
  found : Bool := false
  totalHiddenWords : Option ℕ := none
  hiddenWords : List String := []
  hiddenPhrases : List String := []
deriving DecidableEq

/-- `DocumentInput` from `types.ts` (the fields the generators read).
A missing optional string is `none`; JavaScript treats both a missing
field and the empty string as falsy, which the embedding spells out at
each use site. -/
structure DocumentInput where
  documentId : String
  url : Option String := none
  summary : Option String := none
  names : List String := []
  dates : List String := []
  places : List String := []
  falseRedactions : Option FalseRedactions := none
deriving DecidableEq

/-- One article of `PodcastRequest.articles` from `types.ts`. -/
structure PodcastArticle where
  id : String
  title : Option String := none
  url : Option String := none
  content : String
  summary : Option String := none
deriving DecidableEq

/-- `GenerationResult` from `types.ts`. -/
structure GenerationResult where
  success : Bool
  audioFile : Option String := none
  audioUrl : Option String := none
  title : Option String := none
  tags : Option (List String) := none
  error : Option String := none
deriving DecidableEq

/-! ## Configuration (`config.ts`) -/

/-- The `john` entry of the `voices` table. -/
def voiceJohn : Voice :=
  { id := "john", name := "John", voiceId := "n1PvBOwxb8X6m7tahp2h",
    stability := 0.5, similarityBoost := 0.75 }

/-- The `sadie` entry of the `voices` table. -/
def voiceSadie : Voice :=
  { id := "sadie", name := "Sadie", voiceId := "56bWURjYFHyYyVf490Dp",
    stability := 0.6, similarityBoost := 0.75 }

/-- The `reporter` personality. -/
def reporterPersonality : Personality :=
  { name := "Sadie Woodward", aliasName := "The Story Hunter",
    tone := "incisive and compelling",
    humorStyle := "sharp observations with subtle irony",
    interests := ["investigative journalism", "public accountability",
                  "historical context", "power structures"],
    voice := voiceSadie,
    openingLines :=
      ["This story goes deeper than most realize.",
       "The public deserves to know what we\x27ve uncovered.",
       "Behind the official narrative lies a web of connections.",
       "When you follow the evidence trail...",
       "Today we\x27re diving into documents that tell a remarkable story."],
    closingLines :=
      ["The public deserves transparency, and we\x27ll keep digging until we find it.",
       "As we continue to investigate, remember that history is written by those who control the narrative.",
       "The story doesn\x27t end here - we\x27re just beginning to connect the dots.",
       "Stay vigilant, stay informed, and question everything.",
       "This investigation continues, and so does our commitment to the truth."] }

/-- The `privateEye` personality. -/
def privateEyePersonality : Personality :=
  { name := "John Marlowe", aliasName := "The Truth Seeker",
    tone := "hardboiled and analytical",
    humorStyle := "dry wit with cynical undertones",
    interests := ["crime solving", "investigation techniques",
                  "pattern recognition", "hidden motives"],
    voice := voiceJohn,
    openingLines :=
      ["Listen up, because this is important.",
       "The facts don\x27t lie, but people do.",
       "What we have here is more than a coincidence.",
       "I\x27ve seen a lot in my time, but this case...",
       "Let me lay out what we know so far."],
    closingLines :=
      ["The truth is out there, but you\x27ve got to want to see it.",
       "That\x27s how the pieces fit together. At least, the ones we can see.",
       "Sometimes the answers create more questions.",
       "Remember, in this business, coincidences are rarely that.",
       "The case isn\x27t closed, but we\x27re closer to the truth."] }

/-- The `host1` personality. -/
def host1Personality : Personality :=
  { name := "John", aliasName := "The Analyst",
    tone := "thoughtful and engaging", humorStyle := "dry wit with warmth",
    interests := ["current events", "analysis", "storytelling"],
    voice := voiceJohn,
    openingLines :=
      ["Welcome back, everyone.",
       "Let\x27s dive into today\x27s topic.",
       "There\x27s a lot to unpack here."],
    closingLines :=
      ["Thanks for listening.",
       "Until next time, stay curious.",
       "That\x27s all for today\x27s episode."] }

/-- The `host2` personality. -/
def host2Personality : Personality :=
  { name := "Sadie", aliasName := "The Commentator",
    tone := "engaging and informative", humorStyle := "witty observations",
    interests := ["deep dives", "research", "discussion"],
    voice := voiceSadie,
    openingLines :=
      ["Great to be here.",
       "This is fascinating material.",
       "I\x27ve been looking forward to discussing this."],
    closingLines :=
      ["What a discussion!",
       "Can\x27t wait for the next one.",
       "Thanks everyone for tuning in."] }

/-- Keyed lookup into the `personalities` record. -/
def personalitiesGet : String → Option Personality
  | "reporter" => some reporterPersonality
  | "privateEye" => some privateEyePersonality
  | "host1" => some host1Personality
  | "host2" => some host2Personality
  | _ => none

/-! ## `synthesizeDialogueTurn` (text-to-speech module)

```js
export async function synthesizeDialogueTurn(text, speakerId, outputDir, turnIndex) {
  const voice = speakerId === 'john' || speakerId === 'privateEye' || speakerId === 'host1'
    ? voices.john : voices.sadie;
  const outputFileName = `turn-${turnIndex.toString().padStart(3, '0')}-${speakerId}.mp3`;
  const outputPath = path.join(outputDir, outputFileName);
  const maxChunkLength = 5000;
  if (text.length <= maxChunkLength) return await synthesizeSpeech(text, voice, outputPath);
  const truncatedText = text.substring(0, maxChunkLength);
  return await synthesizeSpeech(truncatedText, voice, outputPath);
}
```

The embedding records what the function passes to `synthesizeSpeech`: the
selected voice, the output path, and the (possibly truncated) text. -/

/-- `padStart(3, '0')` on a numeral string. -/
def padStart3 (s : String) : String :=
  if s.length < 3 then ⟨List.replicate (3 - s.length) '0'⟩ ++ s else s

/-- JavaScript `text.substring(0, n)`. -/
def jsSubstringTo (text : String) (n : ℕ) : String :=
  ⟨text.data.take n⟩

/-- What one `synthesizeDialogueTurn` call sends to the speech-synthesis
API. -/
structure SynthesisCall where
  voice : Voice
  outputPath : String
  sentText : String

/-- `synthesizeDialogueTurn` from the text-to-speech module, as the pure
description of the synthesis request it issues. -/
def synthesizeDialogueTurn (text speakerId outputDir : String)
    (turnIndex : ℕ) : SynthesisCall :=
  let voice :=
    if speakerId = "john" ∨ speakerId = "privateEye" ∨ speakerId = "host1"
    then voiceJohn else voiceSadie
  let outputFileName :=
    "turn-" ++ padStart3 (toString turnIndex) ++ "-" ++ speakerId ++ ".mp3"
  let outputPath := pathJoin outputDir outputFileName
  let maxChunkLength := 5000
  let sentText :=
    if text.length ≤ maxChunkLength then text
    else jsSubstringTo text maxChunkLength
  { voice := voice, outputPath := outputPath, sentText := sentText }

example :
    (synthesizeDialogueTurn "hello there" "privateEye" "/a/dir" 2).outputPath
      = "/a/dir/turn-002-privateEye.mp3" := by decide

/-! ## `generateText` (`text-generator.ts`)

```js
export async function generateText(userPrompt, options = {}) {
  const apiKey = process.env.XAI_API_KEY;
  if (!apiKey) throw new Error('XAI_API_KEY is not configured');
  ...
  const response = await fetch(models.grok.apiUrl, {...});
  if (!response.ok) {
    const errorText = await response.text();
    throw new Error(`Grok API error: ${response.status} - ${errorText}`);
  }
  const data = await response.json();
  if (!data.choices?.[0]?.message?.content) throw new Error('Invalid response from Grok API');
  return data.choices[0].message.content;
}
```

The environment and the single upstream HTTP exchange are modelled by
`GrokEnv`; the `content` field of the JSON body is `none` when any part of
`data.choices[0].message.content` is missing, and `some s` when present
(JavaScript's truthiness test also rejects `some ""`). -/

/-- Whether an `Except` outcome is a raised error. -/
def isError {e a : Type} : Except e a → Bool
  | .error _ => true
  | .ok _ => false

/-- Environment of one `generateText` call: the credential and the
upstream response. -/
structure GrokEnv where
  apiKey : Option String
  responseOk : Bool
  responseStatus : ℕ
  responseErrorText : String
  contentField : Option String
deriving DecidableEq

/-- `generateText`: the outcome together with the number of HTTP requests
issued (the source performs at most one `fetch`, with no retry). -/
def generateText (env : GrokEnv) : Except String String × ℕ :=
  match env.apiKey with
  | none => (.error "XAI_API_KEY is not configured", 0)
  | some _ =>
    if env.responseOk = false then
      (.error ("Grok API error: " ++ toString env.responseStatus ++ " - "
        ++ env.responseErrorText), 1)
    else
      match env.contentField with
      | none => (.error "Invalid response from Grok API", 1)
      | some c =>
        if c = "" then (.error "Invalid response from Grok API", 1)
        else (.ok c, 1)

/-- The failure condition exactly as the claim states it: credential
absent, non-success status, or missing assistant-text field. -/
def specGenerateTextFails (env : GrokEnv) : Prop :=
  env.apiKey = none ∨ env.responseOk = false ∨ env.contentField = none

instance (env : GrokEnv) : Decidable (specGenerateTextFails env) := by
  unfold specGenerateTextFails
  infer_instance

/-! ## SHA-256 (`crypto.createHash('sha256')`)

Both identifier generators hash their content string with Node's SHA-256
and keep the first 16 hex digits.  The hash is modelled by a full FIPS
180-4 implementation over `ℕ` with explicit reduction modulo `2^32`; the
round constants and initial hash state are derived, as in the standard,
from the fractional parts of the cube roots (respectively square roots) of
the first primes. -/

/-- Truncate to a 32-bit word. -/
def w32 (n : ℕ) : ℕ := n % 4294967296

/-- Right-rotation of a 32-bit word: the high and low parts exchange, and
for `n < 2^32` their ranges are disjoint, so addition is bitwise or. -/
def rotr32 (k n : ℕ) : ℕ := w32 (n / 2 ^ k + n % 2 ^ k * 2 ^ (32 - k))

/-- Logical right-shift. -/
def shr32 (k n : ℕ) : ℕ := n / 2 ^ k

/-- Bitwise complement of a 32-bit word (`2^32 - 1 - n` flips every bit of
`n < 2^32`). -/
def not32 (n : ℕ) : ℕ := 4294967295 - w32 n

/-- SHA-256 `Ch`. -/
def sha256Ch (e f g : ℕ) : ℕ := (e &&& f) ^^^ (not32 e &&& g)

/-- SHA-256 `Maj`. -/
def sha256Maj (a b c : ℕ) : ℕ := (a &&& b) ^^^ (a &&& c) ^^^ (b &&& c)

/-- SHA-256 `Σ₀`. -/
def bigSigma0 (a : ℕ) : ℕ := rotr32 2 a ^^^ rotr32 13 a ^^^ rotr32 22 a

/-- SHA-256 `Σ₁`. -/
def bigSigma1 (e : ℕ) : ℕ := rotr32 6 e ^^^ rotr32 11 e ^^^ rotr32 25 e

/-- SHA-256 `σ₀`. -/
def smallSigma0 (x : ℕ) : ℕ := rotr32 7 x ^^^ rotr32 18 x ^^^ shr32 3 x

/-- SHA-256 `σ₁`. -/
def smallSigma1 (x : ℕ) : ℕ := rotr32 17 x ^^^ rotr32 19 x ^^^ shr32 10 x

/-- The first sixty-four primes (sources of the SHA-256 round constants). -/
def primes64 : List ℕ :=
  [2, 3, 5, 7, 11, 13, 17, 19, 23, 29, 31, 37, 41, 43, 47, 53,
   59, 61, 67, 71, 73, 79, 83, 89, 97, 101, 103, 107, 109, 113, 127, 131,
   137, 139, 149, 151, 157, 163, 167, 173, 179, 181, 191, 193, 197, 199, 211, 223,
   227, 229, 233, 239, 241, 251, 257, 263, 269, 271, 277, 281, 283, 293, 307, 311]

/-- Bounded binary search for the integer cube root. -/
def icbrtAux (n : ℕ) : ℕ → ℕ → ℕ → ℕ
  | 0, lo, _ => lo
  | fuel + 1, lo, hi =>
    if hi ≤ lo + 1 then lo
    else
      let mid := (lo + hi) / 2
      if mid ^ 3 ≤ n then icbrtAux n fuel mid hi else icbrtAux n fuel lo mid

/-- Integer cube root (largest `k` with `k^3 ≤ n`), for the constant
derivation. -/
def icbrt (n : ℕ) : ℕ := icbrtAux n 130 0 (n + 1)

/-- SHA-256 round constants: the first 32 bits of the fractional parts of
the cube roots of the first 64 primes
(`⌊2^32 · p^(1/3)⌋ mod 2^32 = ⌊(p · 2^96)^(1/3)⌋ mod 2^32`). -/
def sha256K : List ℕ := primes64.map (fun p => w32 (icbrt (p * 2 ^ 96)))

/-- SHA-256 initial hash state: the first 32 bits of the fractional parts
of the square roots of the first 8 primes. -/
def sha256H0 : List ℕ :=
  [2, 3, 5, 7, 11, 13, 17, 19].map (fun p => w32 (Nat.sqrt (p * 2 ^ 64)))

/-- UTF-8 encoding of one character (Node hashes the UTF-8 bytes of the
content string; every content string here is ASCII). -/
def utf8EncodeChar (c : Char) : List ℕ :=
  let n := c.toNat
  if n < 128 then [n]
  else if n < 2048 then [192 + n / 64, 128 + n % 64]
  else if n < 65536 then
    [224 + n / 4096, 128 + n / 64 % 64, 128 + n % 64]
  else
    [240 + n / 262144, 128 + n / 4096 % 64, 128 + n / 64 % 64, 128 + n % 64]

/-- The UTF-8 bytes of a string. -/
def strBytes (s : String) : List ℕ := s.data.flatMap utf8EncodeChar

/-- Big-endian 64-bit length field. -/
def be64 (n : ℕ) : List ℕ :=
  [n / 2 ^ 56 % 256, n / 2 ^ 48 % 256, n / 2 ^ 40 % 256, n / 2 ^ 32 % 256,
   n / 2 ^ 24 % 256, n / 2 ^ 16 % 256, n / 2 ^ 8 % 256, n % 256]

/-- SHA-256 padding: `0x80`, zeros to 56 mod 64, then the bit length. -/
def sha256Pad (msg : List ℕ) : List ℕ :=
  let L := msg.length
  msg ++ 128 :: List.replicate ((64 - (L + 9) % 64) % 64) 0 ++ be64 (8 * L)

/-- Big-endian 32-bit words from bytes. -/
def bytesToWords : List ℕ → List ℕ
  | b0 :: b1 :: b2 :: b3 :: rest =>
    (b0 * 2 ^ 24 + b1 * 2 ^ 16 + b2 * 2 ^ 8 + b3) :: bytesToWords rest
  | _ => []

/-- Chunk a word list into 16-word blocks (structural fuel keeps the
definition kernel-computable). -/
def toBlocksAux : ℕ → List ℕ → List (List ℕ)
  | 0, _ => []
  | _ + 1, [] => []
  | fuel + 1, ws => ws.take 16 :: toBlocksAux fuel (ws.drop 16)

/-- Chunk a word list into 16-word blocks. -/
def toBlocks (ws : List ℕ) : List (List ℕ) := toBlocksAux ws.length ws

/-- Extend a 16-word block to the 64-entry message schedule. -/
def extendSchedule : ℕ → List ℕ → List ℕ
  | 0, ws => ws
  | n + 1, ws =>
    let t := ws.length
    let wNew := w32 (smallSigma1 (ws.getD (t - 2) 0) + ws.getD (t - 7) 0
      + smallSigma0 (ws.getD (t - 15) 0) + ws.getD (t - 16) 0)
    extendSchedule n (ws ++ [wNew])

/-- The working variables of the compression function. -/
structure Sha256State where
  a : ℕ
  b : ℕ
  c : ℕ
  d : ℕ
  e : ℕ
  f : ℕ
  g : ℕ
  h : ℕ

/-- One compression round. -/
def sha256Round (s : Sha256State) (k w : ℕ) : Sha256State :=
  let t1 := w32 (s.h + bigSigma1 s.e + sha256Ch s.e s.f s.g + k + w)
  let t2 := w32 (bigSigma0 s.a + sha256Maj s.a s.b s.c)
  { a := w32 (t1 + t2), b := s.a, c := s.b, d := s.c,
    e := w32 (s.d + t1), f := s.e, g := s.f, h := s.g }

/-- Compress one block into the running hash value (8 words). -/
def sha256Block (hs : List ℕ) (block : List ℕ) : List ℕ :=
  let ws := extendSchedule 48 block
  let s0 : Sha256State :=
    { a := hs.getD 0 0, b := hs.getD 1 0, c := hs.getD 2 0, d := hs.getD 3 0,
      e := hs.getD 4 0, f := hs.getD 5 0, g := hs.getD 6 0, h := hs.getD 7 0 }
  let sF := (sha256K.zip ws).foldl (fun s kw => sha256Round s kw.1 kw.2) s0
  List.zipWith (fun x y => w32 (x + y)) hs
    [sF.a, sF.b, sF.c, sF.d, sF.e, sF.f, sF.g, sF.h]

/-- SHA-256 of a byte sequence, as 8 words. -/
def sha256Words (msg : List ℕ) : List ℕ :=
  (toBlocks (bytesToWords (sha256Pad msg))).foldl sha256Block sha256H0

/-- Lower-case hex digit. -/
def hexDigit (n : ℕ) : Char :=
  if n < 10 then Char.ofNat (48 + n) else Char.ofNat (87 + n % 16)

/-- A 32-bit word as 8 hex characters. -/
def wordHex (w : ℕ) : List Char :=
  (List.range 8).map (fun i => hexDigit (w / 16 ^ (7 - i) % 16))

/-- `crypto.createHash('sha256').update(s).digest('hex')`. -/
def sha256hex (s : String) : String :=
  ⟨(sha256Words (strBytes s)).flatMap wordHex⟩

/-- The hex digest truncated to its first 16 characters
(`.substring(0, 16)`). -/
def sha256hex16 (s : String) : String :=
  ⟨(sha256hex s).data.take 16⟩

/-! ## Content-addressed identifiers

```js
// investigative-report.ts
function generateReportId(documents, investigation) {
  const content = documents.map(d => d.documentId || d.url || 'doc').join(',') + investigation;
  return crypto.createHash('sha256').update(content).digest('hex').substring(0, 16);
}
// podcast.ts
function generatePodcastId(articles, hosts) {
  const content = articles.map(a => a.url || a.title || a.id).join(',') + hosts.join(',');
  return crypto.createHash('sha256').update(content).digest('hex').substring(0, 16);
}
```

Note that `generateReportId` receives the documents and the investigation
name only; the selected investigator keys are not part of the report's
content string.  `generatePodcastId` does include the host keys. -/

/-- `d.documentId || d.url || 'doc'` (the empty string and a missing field
are both falsy). -/
def docKey (d : DocumentInput) : String :=
  if d.documentId ≠ "" then d.documentId
  else if d.url.getD "" ≠ "" then d.url.getD ""
  else "doc"

/-- The content string hashed by `generateReportId`. -/
def reportContent (documents : List DocumentInput) (investigation : String) :
    String :=
  String.intercalate "," (documents.map docKey) ++ investigation

/-- `generateReportId` from `investigative-report.ts`. -/
def generateReportId (documents : List DocumentInput)
    (investigation : String) : String :=
  sha256hex16 (reportContent documents investigation)

/-- `a.url || a.title || a.id`. -/
def articleKey (a : PodcastArticle) : String :=
  if a.url.getD "" ≠ "" then a.url.getD ""
  else if a.title.getD "" ≠ "" then a.title.getD ""
  else a.id

/-- The content string hashed by `generatePodcastId`. -/
def podcastContent (articles : List PodcastArticle) (hosts : List String) :
    String :=
  String.intercalate "," (articles.map articleKey)
    ++ String.intercalate "," hosts

/-- `generatePodcastId` from `podcast.ts`. -/
def generatePodcastId (articles : List PodcastArticle)
    (hosts : List String) : String :=
  sha256hex16 (podcastContent articles hosts)

/-- The identifier computation exactly as `generateInvestigativeReport`
performs it at its entry (`investigative-report.ts` line 134):
`generateReportId(documents, investigation)`, with the
`selectedInvestigators` argument in scope but not passed. -/
def reportRunId (documents : List DocumentInput) (investigation : String)
    (_selectedInvestigators : List String) : String :=
  generateReportId documents investigation

/-! ## Response clean-up (`text-generator.ts`)

`generateInvestigatorComment` post-processes the model output with

```js
return response
  .replace(/\*[^*]+\*/g, '')
  .replace(/\[[^\]]+\]/g, '')
  .replace(/\([^)]+\)/g, '')
  .trim();
```

(`generateHostComment` applies only the first two, `generateTitle` strips
quote characters, `generateTags` splits on commas).  A global replace of
`/o[^c]+c/g` removes, scanning left to right, every maximal-leftmost
occurrence of `o`, one or more non-`c` characters, then `c`. -/

/-- One left-to-right pass removing `o…c` delimited runs (at least one
inner character, none of them `c`).  The fuel is an upper bound on the
number of scanning steps; each step consumes at least one character, so
the list length suffices. -/
def stripDelimsAux (o c : Char) : ℕ → List Char → List Char
  | 0, cs => cs
  | _ + 1, [] => []
  | fuel + 1, x :: xs =>
    if x = o then
      match xs.findIdx? (fun y => y = c) with
      | some i =>
        if 1 ≤ i then stripDelimsAux o c fuel (xs.drop (i + 1))
        else x :: stripDelimsAux o c fuel xs
      | none => x :: stripDelimsAux o c fuel xs
    else x :: stripDelimsAux o c fuel xs

/-- `String.prototype.replace(/o[^c]+c/g, '')`. -/
def stripDelims (o c : Char) (cs : List Char) : List Char :=
  stripDelimsAux o c cs.length cs

/-- JavaScript `String.prototype.trim`. -/
def jsTrim (s : String) : String :=
  ⟨((s.data.dropWhile isJsWhitespace).reverse.dropWhile isJsWhitespace).reverse⟩

/-- The post-processing `generateInvestigatorComment` applies to the
generated text before returning it. -/
def cleanInvestigatorComment (response : String) : String :=
  jsTrim ⟨stripDelims '(' ')' (stripDelims '[' ']'
    (stripDelims '*' '*' response.data))⟩

/-- The post-processing `generateHostComment` applies. -/
def cleanHostComment (response : String) : String :=
  jsTrim ⟨stripDelims '[' ']' (stripDelims '*' '*' response.data)⟩

/-- `generateTitle`'s clean-up: `response.replace(/["']/g, '').trim()`. -/
def cleanTitle (response : String) : String :=
  jsTrim ⟨response.data.filter (fun ch => ¬ (ch = '"' ∨ ch = '\x27'))⟩

/-- Split a character list at every occurrence of `sep`. -/
def splitCharAux (sep : Char) : List Char → List Char → List (List Char)
  | [], acc => [acc.reverse]
  | c :: cs, acc =>
    if c = sep then acc.reverse :: splitCharAux sep cs []
    else splitCharAux sep cs (c :: acc)

/-- `generateTags`'s parsing:
`response.split(',').map(tag => tag.trim()).filter(Boolean)`. -/
def parseTags (response : String) : List String :=
  ((splitCharAux ',' response.data []).map (fun seg => jsTrim ⟨seg⟩)).filter
    (fun t => t ≠ "")

example : cleanInvestigatorComment " hello *laughs* there [pause] (ahem) " = "hello  there" := by decide
example : parseTags "alpha, beta , ,gamma" = ["alpha", "beta", "gamma"] := by decide

/-! ## Document summaries and grouping (`investigative-report.ts`) -/

/-- Order-preserving de-duplication, as `[...new Set(xs)]`. -/
def dedupFirst : List String → List String
  | [] => []
  | x :: xs => x :: (dedupFirst xs).filter (fun y => y ≠ x)

/-- The per-document block built by `createDocumentSummary`. -/
def docSummaryBlock (docId : String) (doc : DocumentInput) : String :=
  let base := "Document: " ++ docId ++ "\n"
    ++ (if doc.summary.getD "" ≠ "" then "Summary: " ++ doc.summary.getD "" ++ "\n" else "")
    ++ (if doc.names.length ≠ 0 then "People: " ++ String.intercalate ", " doc.names ++ "\n" else "")
    ++ (if doc.places.length ≠ 0 then "Places: " ++ String.intercalate ", " doc.places ++ "\n" else "")
    ++ (if doc.dates.length ≠ 0 then "Dates: " ++ String.intercalate ", " doc.dates ++ "\n" else "")
  match doc.falseRedactions with
  | some fr =>
    if fr.found then
      base ++ "\nFalse Redactions (Hidden Text Found):\n"
        ++ (match fr.totalHiddenWords with
            | some n => if n ≠ 0 then "Total hidden words recovered: " ++ toString n ++ "\n" else ""
            | none => "")
        ++ (if fr.hiddenWords.length ≠ 0 then "Hidden words: " ++ String.intercalate ", " fr.hiddenWords ++ "\n" else "")
        ++ (if fr.hiddenPhrases.length ≠ 0 then "Hidden phrases: " ++ String.intercalate ", " fr.hiddenPhrases ++ "\n" else "")
    else base
  | none => base

/-- `createDocumentSummary` from `investigative-report.ts`. -/
def createDocumentSummary (documents : List DocumentInput) : String :=
  let uniqueIds := dedupFirst (documents.map (fun d => d.documentId))
  String.intercalate "\n---\n"
    (uniqueIds.filterMap (fun docId =>
      (documents.find? (fun d => d.documentId = docId)).map
        (docSummaryBlock docId)))

/-- `hasOverlap` between two documents: a shared name, place or date (a
missing entity list behaves as empty). -/
def hasOverlap (doc otherDoc : DocumentInput) : Bool :=
  doc.names.any (fun n => otherDoc.names.contains n)
    || doc.places.any (fun p => otherDoc.places.contains p)
    || doc.dates.any (fun d => otherDoc.dates.contains d)

/-- The `uniqueDocs` map of `groupRelatedDocuments`: first occurrence of
each truthy `documentId` wins, insertion order preserved. -/
def uniqueById : List DocumentInput → List String → List DocumentInput
  | [], _ => []
  | d :: ds, seen =>
    if d.documentId ≠ "" ∧ d.documentId ∉ seen then
      d :: uniqueById ds (seen ++ [d.documentId])
    else uniqueById ds seen

/-- The inner loop of `groupRelatedDocuments`: collect the not-yet-used
documents of `arr` that overlap the group's seed `d`, marking each one
used as it is taken. -/
def collectRelated (d : DocumentInput) :
    List DocumentInput → List String → List DocumentInput × List String
  | [], used => ([], used)
  | o :: os, used =>
    if o.documentId ∈ used then collectRelated d os used
    else if hasOverlap d o then
      (o :: (collectRelated d os (used ++ [o.documentId])).1,
       (collectRelated d os (used ++ [o.documentId])).2)
    else collectRelated d os used

/-- The outer loop of `groupRelatedDocuments`: each unused document seeds
a group (and is marked used); the group is kept only when it has more than
one member. -/
def groupLoop (arr : List DocumentInput) :
    List DocumentInput → List String → List (List DocumentInput) × List String
  | [], used => ([], used)
  | d :: ds, used =>
    if d.documentId ∈ used then groupLoop arr ds used
    else
      let rel := collectRelated d arr (used ++ [d.documentId])
      let group := d :: rel.1
      let rest := groupLoop arr ds rel.2
      if group.length > 1 then (group :: rest.1, rest.2) else rest

/-- Result of `groupRelatedDocuments`. -/
structure GroupedDocuments where
  relatedGroups : List (List DocumentInput)
  unrelated : List DocumentInput
deriving DecidableEq

/-- `groupRelatedDocuments` from `investigative-report.ts`. -/
def groupRelatedDocuments (documents : List DocumentInput) :
    GroupedDocuments :=
  let docArray := uniqueById documents []
  let res := groupLoop docArray docArray []
  { relatedGroups := res.1,
    unrelated := docArray.filter (fun d => d.documentId ∉ res.2) }

/-! ## The generation pipelines

`generateInvestigativeReport` and `generatePodcast` are sequential
orchestrations of external calls.  The embedding makes the externally
visible behaviour explicit:

* `GenEnv` supplies the initial filesystem, the text returned by each
  successive text-generation call, each successive `Math.random` draw, and
  the behaviour of `ffmpeg`;
* every external step is recorded in an `Effect` trace, in program order.

The prompt strings assembled for the text-generation API (pure string
formatting in `text-generator.ts`, sent to the external service and
otherwise unused) are not reconstructed; a `textGenCall` effect records
that the call happened, and the oracle supplies the cleaned-up call
result's raw text.  Progress callbacks (pure notifications) are likewise
not materialized in the trace. -/

/-- One externally visible step of a generation run. -/
inductive Effect where
  /-- `fs.mkdirSync` of the per-run temporary directory. -/
  | mkdir (dir : String)
  /-- One HTTP call to the chat-completion API (`generateText`). -/
  | textGenCall
  /-- One HTTP call to the speech-synthesis API, with the text sent and
  the file written. -/
  | ttsCall (text : String) (outputPath : String)
  /-- The concatenation step, with the files merged and the output. -/
  | ffmpegConcat (files : List String) (output : String)
  /-- `fs.rmSync` of the per-run temporary directory. -/
  | rmdirTemp (dir : String)
deriving DecidableEq

/-- Environment of one generation run. -/
structure GenEnv where
  /-- `fs.existsSync` at the start of the run. -/
  fsExists : String → Bool
  /-- Text returned by the `n`-th text-generation call of the run. -/
  genText : ℕ → String
  /-- Value of the `n`-th `Math.floor(Math.random() * k)` draw. -/
  rand : ℕ → ℕ
  /-- Whether `ffmpeg -version` succeeds. -/
  ffmpegAvailable : Bool
  /-- Whether the `ffmpeg` concat run exits zero and produces the output
  file. -/
  ffmpegOk : Bool

/-! ### `concatenateAudioFiles`

```js
async function concatenateAudioFiles(inputFiles, outputPath) {
  const existingFiles = inputFiles.filter(file => fs.existsSync(file));
  if (existingFiles.length === 0) throw new Error('No audio files to concatenate');
  const ffmpegAvailable = await checkFfmpegAvailable();
  if (ffmpegAvailable) await concatenateWithFfmpeg(existingFiles, outputPath);
  else await concatenateSimple(existingFiles, outputPath);
}
```

(Both `investigative-report.ts` and `podcast.ts` define this function with
the same structure; the report variant additionally verifies that `ffmpeg`
produced the output file, which the `ffmpegOk` flag covers.)  On success
the returned list is the set of files actually merged. -/

/-- `concatenateAudioFiles` from `investigative-report.ts`. -/
def irConcatenateAudioFiles (fs : String → Bool)
    (ffmpegAvailable ffmpegOk : Bool) (inputFiles : List String)
    (_outputPath : String) : Except String (List String) :=
  let existingFiles := inputFiles.filter fs
  if existingFiles.length = 0 then .error "No audio files to concatenate"
  else if ffmpegAvailable then
    if ffmpegOk then .ok existingFiles
    else .error "ffmpeg did not create output file"
  else .ok existingFiles

/-- `concatenateAudioFiles` from `podcast.ts` (same behaviour; the
fallback path performs the plain buffer concatenation). -/
def podcastConcatenateAudioFiles (fs : String → Bool)
    (ffmpegAvailable ffmpegOk : Bool) (inputFiles : List String)
    (_outputPath : String) : Except String (List String) :=
  let existingFiles := inputFiles.filter fs
  if existingFiles.length = 0 then .error "No audio files to concatenate"
  else if ffmpegAvailable then
    if ffmpegOk then .ok existingFiles else .error "ffmpeg exited non-zero"
  else .ok existingFiles

/-! ### The content loops -/

/-- `currentDuration < targetLengthSeconds * (num / den)`, computed on
integers (`belowFrac_iff` proves it equal to the rational comparison; the
accumulated duration is always an integer because `estimateAudioDuration`
rounds up). -/
def belowFrac (d : ℕ) (t : ℚ) (num den : ℕ) : Bool :=
  (d : ℤ) * den * t.den < t.num * num

/-- `belowFrac` agrees with the rational comparison of the source. -/
theorem belowFrac_iff (d : ℕ) (t : ℚ) (num den : ℕ) (hden : 0 < den) :
    belowFrac d t num den = true ↔ (d : ℚ) < t * ((num : ℚ) / (den : ℚ)) := by
  unfold belowFrac
  have htden : (0 : ℚ) < (t.den : ℚ) := by
    exact_mod_cast t.den_pos
  have hqden : (0 : ℚ) < (den : ℚ) := by exact_mod_cast hden
  have ht : t = (t.num : ℚ) / (t.den : ℚ) := by
    exact_mod_cast (Rat.num_div_den t).symm
  rw [decide_eq_true_eq]
  constructor
  · intro h
    have h' : ((d : ℚ)) * den * t.den < (t.num : ℚ) * num := by exact_mod_cast h
    rw [ht, div_mul_div_comm, lt_div_iff₀ (by positivity)]
    linarith
  · intro h
    rw [ht, div_mul_div_comm, lt_div_iff₀ (by positivity)] at h
    have hq : (((d : ℤ) * den * t.den : ℤ) : ℚ) < (((t.num * num : ℤ)) : ℚ) := by
      push_cast
      linarith
    exact_mod_cast hq

/-- Mutable state of the content loops (the accumulated dialogue, files,
estimated duration, the turn / speaker / oracle indices and the effect
trace so far). -/
structure LoopState where
  dialogue : List DialogueTurn
  audioFiles : List String
  duration : ℕ
  turnIndex : ℕ
  speakerIdx : ℕ
  callIdx : ℕ
  randIdx : ℕ
  fx : List Effect

/-- One speaker of the two-element `speakers` array. -/
structure SpeakerSlot where
  key : String
  personality : Personality

/-- One content turn shared by both loops: generate a comment with the
current speaker, synthesize it, accumulate its estimated duration and
advance the indices.  `clean` is the post-processing of the respective
comment generator. -/
def contentTurn (env : GenEnv) (clean : String → String)
    (s1 s2 : SpeakerSlot) (outputDir : String) (consumeRand : Bool)
    (st : LoopState) : LoopState :=
  let speaker := if st.speakerIdx % 2 = 0 then s1 else s2
  let text := clean (env.genText st.callIdx)
  let synth := synthesizeDialogueTurn text speaker.key outputDir st.turnIndex
  { dialogue := st.dialogue ++ [⟨speaker.key, text⟩],
    audioFiles := st.audioFiles ++ [synth.outputPath],
    duration := st.duration + estimateAudioDuration text,
    turnIndex := st.turnIndex + 1,
    speakerIdx := st.speakerIdx + 1,
    callIdx := st.callIdx + 1,
    randIdx := if consumeRand then st.randIdx + 1 else st.randIdx,
    fx := st.fx ++ [.textGenCall, .ttsCall synth.sentText synth.outputPath] }

/-- The inner `for (let j = 0; j < 2 && currentDuration < target * 0.8; j++)`
of the report's group loop. -/
def irGroupTurns (env : GenEnv) (s1 s2 : SpeakerSlot) (outputDir : String)
    (target : ℚ) : ℕ → LoopState → LoopState
  | 0, st => st
  | j + 1, st =>
    if belowFrac st.duration target 4 5 then
      irGroupTurns env s1 s2 outputDir target j
        (contentTurn env cleanInvestigatorComment s1 s2 outputDir false st)
    else st

/-- The outer
`for (let i = 0; i < relatedGroups.length && currentDuration < target * 0.8; i++)`
of `generateInvestigativeReport`, two turns per related group.  The group
itself only feeds the prompt. -/
def irContentLoop (env : GenEnv) (s1 s2 : SpeakerSlot) (outputDir : String)
    (target : ℚ) : List (List DocumentInput) → LoopState → LoopState
  | [], st => st
  | _g :: gs, st =>
    if belowFrac st.duration target 4 5 then
      irContentLoop env s1 s2 outputDir target gs
        (irGroupTurns env s1 s2 outputDir target 2 st)
    else st

/-- The podcast's
`while (currentDuration < targetLengthSeconds * 0.75) { ...; turnIndex++; if (turnIndex > 20) break; }`
loop body, driven by fuel.  Each focus-article draw consumes one random
value.  `podcastLoopAux_fuel_irrelevant` shows any fuel above the break
bound computes the same result, so `podcastContentLoop` (fuel 22) is exact
for every start state. -/
def podcastLoopAux (env : GenEnv) (s1 s2 : SpeakerSlot) (outputDir : String)
    (target : ℚ) : ℕ → LoopState → LoopState
  | 0, st => st
  | fuel + 1, st =>
    if belowFrac st.duration target 3 4 then
      let st' := contentTurn env cleanHostComment s1 s2 outputDir true st
      if st'.turnIndex > 20 then st'
      else podcastLoopAux env s1 s2 outputDir target fuel st'
    else st

/-- The podcast content loop. -/
def podcastContentLoop (env : GenEnv) (s1 s2 : SpeakerSlot)
    (outputDir : String) (target : ℚ) (st : LoopState) : LoopState :=
  podcastLoopAux env s1 s2 outputDir target 22 st

/-- Once past the break bound, the fuel does not matter: the loop breaks
by itself when the turn index passes 20. -/
theorem podcastLoopAux_fuel_irrelevant (env : GenEnv) (s1 s2 : SpeakerSlot)
    (outputDir : String) (target : ℚ) :
    ∀ f g : ℕ, ∀ st : LoopState, 20 - st.turnIndex < f →
      20 - st.turnIndex < g →
      podcastLoopAux env s1 s2 outputDir target f st
        = podcastLoopAux env s1 s2 outputDir target g st := by
  intro f
  induction f with
  | zero => intro g st hf _; omega
  | succ f ih =>
    intro g st hf hg
    cases g with
    | zero => omega
    | succ g =>
      simp only [podcastLoopAux]
      by_cases hb : belowFrac st.duration target 3 4
      · simp only [hb, if_true]
        set st' := contentTurn env cleanHostComment s1 s2 outputDir true st
          with hst'
        have hti : st'.turnIndex = st.turnIndex + 1 := by
          simp [hst', contentTurn]
        by_cases hcap : st'.turnIndex > 20
        · simp [hcap]
        · simp only [hcap, if_false]
          exact ih g st' (by omega) (by omega)
      · simp [hb]

/-! ### `generateInvestigativeReport` -/

/-- `generateInvestigativeReport` from `investigative-report.ts`, as a
function from the run environment and arguments to the returned
`GenerationResult` and the trace of external effects.  The text of each
generated comment is the oracle's value for the corresponding call index,
post-processed exactly as `generateInvestigatorComment` does. -/
def generateInvestigativeReport (env : GenEnv) (cwd : String)
    (documents : List DocumentInput)
    (investigation : String := "Document Investigation")
    (selectedInvestigators : List String := ["reporter", "privateEye"])
    (targetLengthSeconds : ℚ := 300) : GenerationResult × List Effect :=
  let audioDir := pathJoin cwd "generated-audio"
  let reportId := generateReportId documents investigation
  let outputDir := pathJoin audioDir reportId
  let finalOutputPath := pathJoin audioDir (reportId ++ ".mp3")
  if env.fsExists finalOutputPath then
    ({ success := true, audioFile := some (reportId ++ ".mp3"),
       audioUrl := some ("/api/generate/media?id=" ++ reportId ++ ".mp3") },
     [])
  else
    let mkfx : List Effect :=
      if env.fsExists outputDir then [] else [.mkdir outputDir]
    let k1 := selectedInvestigators.getD 0 "undefined"
    let k2 := selectedInvestigators.getD 1 "undefined"
    let speaker1 := (personalitiesGet k1).getD reporterPersonality
    let speaker2 := (personalitiesGet k2).getD privateEyePersonality
    let _openingLine := speaker1.openingLines.getD
      (env.rand 0 % max speaker1.openingLines.length 1) ""
    let openingComment := cleanInvestigatorComment (env.genText 0)
    let synth0 := synthesizeDialogueTurn openingComment k1 outputDir 0
    let initialResponse := cleanInvestigatorComment (env.genText 1)
    let synth1 := synthesizeDialogueTurn initialResponse k2 outputDir 1
    let gr := groupRelatedDocuments documents
    let st0 : LoopState :=
      { dialogue := [⟨k1, openingComment⟩, ⟨k2, initialResponse⟩],
        audioFiles := [synth0.outputPath, synth1.outputPath],
        duration := estimateAudioDuration openingComment
          + estimateAudioDuration initialResponse,
        turnIndex := 2, speakerIdx := 0, callIdx := 2, randIdx := 1,
        fx := mkfx ++ [.textGenCall,
          .ttsCall synth0.sentText synth0.outputPath, .textGenCall,
          .ttsCall synth1.sentText synth1.outputPath] }
    let st := irContentLoop env ⟨k1, speaker1⟩ ⟨k2, speaker2⟩ outputDir
      targetLengthSeconds gr.relatedGroups st0
    let _closingLine := speaker1.closingLines.getD
      (env.rand st.randIdx % max speaker1.closingLines.length 1) ""
    let closingComment := cleanInvestigatorComment (env.genText st.callIdx)
    let synthC := synthesizeDialogueTurn closingComment k1 outputDir
      st.turnIndex
    let audioFiles := st.audioFiles ++ [synthC.outputPath]
    let fx1 := st.fx
      ++ [.textGenCall, .ttsCall synthC.sentText synthC.outputPath]
    let concatFs := fun p => env.fsExists p || audioFiles.contains p
    match irConcatenateAudioFiles concatFs env.ffmpegAvailable env.ffmpegOk
      audioFiles finalOutputPath with
    | .error e =>
      ({ success := false, error := some e }, fx1 ++ [.rmdirTemp outputDir])
    | .ok merged =>
      let title := cleanTitle (env.genText (st.callIdx + 1))
      let tags := parseTags (env.genText (st.callIdx + 2))
      ({ success := true, audioFile := some (reportId ++ ".mp3"),
         audioUrl := some ("/api/generate/media?id=" ++ reportId ++ ".mp3"),
         title := some title, tags := some tags },
       fx1 ++ [.ffmpegConcat merged finalOutputPath, .textGenCall,
         .textGenCall, .rmdirTemp outputDir])

/-! ### `generatePodcast` -/

/-- `generatePodcast` from `podcast.ts`, in the same style. -/
def generatePodcast (env : GenEnv) (cwd : String)
    (articles : List PodcastArticle)
    (selectedHosts : List String := ["host1", "host2"])
    (targetLengthSeconds : ℚ := 300) : GenerationResult × List Effect :=
  let audioDir := pathJoin cwd "generated-audio"
  let podcastId := generatePodcastId articles selectedHosts
  let outputDir := pathJoin audioDir podcastId
  let finalOutputPath := pathJoin audioDir (podcastId ++ ".mp3")
  if env.fsExists finalOutputPath then
    ({ success := true, audioFile := some (podcastId ++ ".mp3"),
       audioUrl := some ("/api/generate/media?id=" ++ podcastId ++ ".mp3") },
     [])
  else
    let mkfx : List Effect :=
      if env.fsExists outputDir then [] else [.mkdir outputDir]
    let k1 := selectedHosts.getD 0 "undefined"
    let k2 := selectedHosts.getD 1 "undefined"
    let speaker1 := (personalitiesGet k1).getD host1Personality
    let speaker2 := (personalitiesGet k2).getD host2Personality
    let _openingLine := speaker1.openingLines.getD
      (env.rand 0 % max speaker1.openingLines.length 1) ""
    let openingComment := cleanHostComment (env.genText 0)
    let synth0 := synthesizeDialogueTurn openingComment k1 outputDir 0
    let initialResponse := cleanHostComment (env.genText 1)
    let synth1 := synthesizeDialogueTurn initialResponse k2 outputDir 1
    let st0 : LoopState :=
      { dialogue := [⟨k1, openingComment⟩, ⟨k2, initialResponse⟩],
        audioFiles := [synth0.outputPath, synth1.outputPath],
        duration := estimateAudioDuration openingComment
          + estimateAudioDuration initialResponse,
        turnIndex := 2, speakerIdx := 0, callIdx := 2, randIdx := 1,
        fx := mkfx ++ [.textGenCall,
          .ttsCall synth0.sentText synth0.outputPath, .textGenCall,
          .ttsCall synth1.sentText synth1.outputPath] }
    let st := podcastContentLoop env ⟨k1, speaker1⟩ ⟨k2, speaker2⟩ outputDir
      targetLengthSeconds st0
    let _closingLine := speaker1.closingLines.getD
      (env.rand st.randIdx % max speaker1.closingLines.length 1) ""
    let closingComment := cleanHostComment (env.genText st.callIdx)
    let synthC := synthesizeDialogueTurn closingComment k1 outputDir
      st.turnIndex
    let audioFiles := st.audioFiles ++ [synthC.outputPath]
    let fx1 := st.fx
      ++ [.textGenCall, .ttsCall synthC.sentText synthC.outputPath]
    let concatFs := fun p => env.fsExists p || audioFiles.contains p
    match podcastConcatenateAudioFiles concatFs env.ffmpegAvailable
      env.ffmpegOk audioFiles finalOutputPath with
    | .error e =>
      ({ success := false, error := some e }, fx1 ++ [.rmdirTemp outputDir])
    | .ok merged =>
      let title := cleanTitle (env.genText (st.callIdx + 1))
      let tags := parseTags (env.genText (st.callIdx + 2))
      ({ success := true, audioFile := some (podcastId ++ ".mp3"),
         audioUrl := some ("/api/generate/media?id=" ++ podcastId ++ ".mp3"),
         title := some title, tags := some tags },
       fx1 ++ [.ffmpegConcat merged finalOutputPath, .textGenCall,
         .textGenCall, .rmdirTemp outputDir])

/-! ## The media route (`GET /api/generate/media`)

```js
export async function GET(request) {
  const id = request.nextUrl.searchParams.get('id');
  if (!id) return 400;
  const sanitizedId = path.basename(id);
  const audioDir = getAudioDirectory();
  const filePath = path.join(audioDir, sanitizedId);
  if (!fs.existsSync(filePath)) return 404;
  const resolvedPath = path.resolve(filePath);
  const resolvedAudioDir = path.resolve(audioDir);
  if (!resolvedPath.startsWith(resolvedAudioDir)) return 403;
  const ext = path.extname(sanitizedId).toLowerCase();
  ... return 200 with the file contents;
}
``` -/

/-- The media route's response: status, the path of the file served at
200, and the `Content-Type` derived from the extension. -/
structure MediaResponse where
  status : ℕ
  servedPath : Option String := none
  contentType : Option String := none
deriving DecidableEq

/-- The route's `contentTypes` table. -/
def mediaContentTypes : String → Option String
  | ".mp3" => some "audio/mpeg"
  | ".wav" => some "audio/wav"
  | ".ogg" => some "audio/ogg"
  | ".flac" => some "audio/flac"
  | _ => none

/-- The media `GET` handler. -/
def mediaGET (fs : String → Bool) (audioDir : String)
    (idParam : Option String) : MediaResponse :=
  match idParam with
  | none => { status := 400 }
  | some id =>
    if id = "" then { status := 400 }
    else
      let sanitizedId := pathBasename id
      let filePath := pathJoin audioDir sanitizedId
      if fs filePath = false then { status := 404 }
      else
        let resolvedPath := pathResolve filePath
        let resolvedAudioDir := pathResolve audioDir
        if jsStartsWith resolvedPath resolvedAudioDir = false then
          { status := 403 }
        else
          let ext := jsToLower (pathExtname sanitizedId)
          { status := 200, servedPath := some filePath,
            contentType :=
              some ((mediaContentTypes ext).getD "application/octet-stream") }

/-! ## The report route (`POST /api/generate/investigative-report`)

The handler parses the JSON body, validates
`!documents || !Array.isArray(documents) || documents.length === 0`,
emitting a single `error` event and closing the stream when validation
fails, and otherwise runs `generateInvestigativeReport`, relaying its
outcome.  The model returns the server-sent events emitted (keep-alive
pings are timer-driven and not part of the synchronous behaviour; the
`investigationUpdate` relays of progress callbacks are pure notifications
and are not materialized) together with the generation run's effect
trace — empty exactly when no external call can have happened. -/

/-- The shape found at the `documents` key of the parsed body. -/
inductive DocsField where
  | missing
  | notArray
  | arr (docs : List DocumentInput)
deriving DecidableEq

/-- The parsed request body. -/
structure ReportRequestBody where
  docsField : DocsField
  investigation : Option String := none
  selectedInvestigators : Option (List String) := none
  targetLengthSeconds : Option ℚ := none

/-- One server-sent event (name and human-readable message). -/
structure SSEEvent where
  name : String
  message : String
deriving DecidableEq

/-- The `POST` handler of the investigative-report route; `body = none`
models a request whose JSON parsing throws. -/
def investigativeReportPOST (env : GenEnv) (cwd : String)
    (body : Option ReportRequestBody) : List SSEEvent × List Effect :=
  match body with
  | none => ([⟨"error", "invalid JSON body"⟩], [])
  | some b =>
    match b.docsField with
    | .missing => ([⟨"error", "Documents are required"⟩], [])
    | .notArray => ([⟨"error", "Documents are required"⟩], [])
    | .arr docs =>
      if docs.length = 0 then ([⟨"error", "Documents are required"⟩], [])
      else
        let investigation := b.investigation.getD "Document Investigation"
        let investigators :=
          b.selectedInvestigators.getD ["reporter", "privateEye"]
        let target := b.targetLengthSeconds.getD 300
        let (result, fx) := generateInvestigativeReport env cwd docs
          investigation investigators target
        let events :=
          ⟨"generatingReport", "Starting investigative report generation"⟩ ::
          (if result.success then
            [⟨"reportComplete", "Investigative report generation complete!"⟩]
          else [⟨"error", result.error.getD "Failed to generate report"⟩])
        (events, fx)

/-! # Claims -/

/-! ## C4 — the duration heuristic -/

/-- C4: the claim states that `estimateAudioDuration` returns the word
count divided by 2.5.  At the three-word text `"a b c"` the source
returns `Math.ceil(3 / 2.5) = 2`, not `3 / 2.5 = 1.2`: the claim omits
the rounding-up. -/
theorem c4_duration_is_ceiled :
    (estimateAudioDuration "a b c" : ℚ) ≠ specEstimateAudioDuration "a b c"
      ∧ estimateAudioDuration "a b c" = 2 := by
  have hw : countWords "a b c" = 3 := by decide
  have hd : estimateAudioDuration "a b c" = 2 := by decide
  refine ⟨?_, hd⟩
  rw [hd]
  unfold specEstimateAudioDuration
  rw [hw]
  norm_num

/-- C4 (amended): `estimateAudioDuration` is a pure, deterministic
function of the word count — equal word counts give equal durations — and
returns the word count divided by 2.5 rounded up (`Math.ceil`), not the
exact quotient. -/
theorem c4_duration_deterministic_ceiling :
    (∀ t₁ t₂ : String, countWords t₁ = countWords t₂ →
      estimateAudioDuration t₁ = estimateAudioDuration t₂)
    ∧ (∀ t : String,
        (estimateAudioDuration t : ℤ) = ⌈(countWords t : ℚ) / (2.5 : ℚ)⌉) := by
  constructor
  · intro t₁ t₂ h
    unfold estimateAudioDuration
    rw [h]
  · exact estimateAudioDuration_eq_ceil

/-- C4 witness: two different three-word transcripts get the same
duration. -/
theorem c4_duration_witness :
    countWords "one two three" = countWords "four five six"
      ∧ estimateAudioDuration "one two three"
          = estimateAudioDuration "four five six" :=
  ⟨by decide, c4_duration_deterministic_ceiling.1 "one two three"
    "four five six" (by decide)⟩

/-! ## C9 — truncation before synthesis -/

/-- C9: `synthesizeDialogueTurn` passes text of at most 5000 characters
unchanged to synthesis, and truncates longer text to its first 5000
characters (`substring(0, 5000)`), never chunking and rejoining. -/
theorem c9_truncation_at_5000 (text speakerId outputDir : String)
    (turnIndex : ℕ) :
    (text.length ≤ 5000 →
      (synthesizeDialogueTurn text speakerId outputDir turnIndex).sentText
        = text)
    ∧ (5000 < text.length →
      (synthesizeDialogueTurn text speakerId outputDir turnIndex).sentText
        = jsSubstringTo text 5000
      ∧ ((synthesizeDialogueTurn text speakerId outputDir
            turnIndex).sentText).length = 5000) := by
  constructor
  · intro h
    simp [synthesizeDialogueTurn, h]
  · intro h
    have h' : ¬ text.length ≤ 5000 := by omega
    refine ⟨by simp [synthesizeDialogueTurn, h'], ?_⟩
    simp only [synthesizeDialogueTurn, h', if_false]
    show (jsSubstringTo text 5000).length = 5000
    simp only [jsSubstringTo, String.length]
    simp only [List.length_take]
    have : text.length = text.data.length := rfl
    omega

/-- A 5001-character text, for the C9 witness. -/
def c9LongText : String := ⟨List.replicate 5001 'a'⟩

/-- C9 witness: a short text passes unchanged; a 5001-character text is
cut to exactly 5000 characters. -/
theorem c9_truncation_witness :
    ("hi".length ≤ 5000
      ∧ (synthesizeDialogueTurn "hi" "john" "/dir" 0).sentText = "hi")
    ∧ (5000 < c9LongText.length
      ∧ ((synthesizeDialogueTurn c9LongText "john" "/dir" 0).sentText).length
          = 5000) := by
  have hshort : ("hi" : String).length ≤ 5000 := by decide
  have hlong : 5000 < c9LongText.length := by
    show 5000 < c9LongText.data.length
    have hdata : c9LongText.data = List.replicate 5001 'a' := rfl
    rw [hdata, List.length_replicate]
    omega
  exact ⟨⟨hshort, (c9_truncation_at_5000 "hi" "john" "/dir" 0).1 hshort⟩,
    ⟨hlong, ((c9_truncation_at_5000 c9LongText "john" "/dir" 0).2 hlong).2⟩⟩

/-! ## C7 — `generateText` failure conditions -/

/-- C7: the claim says `generateText` fails *iff* the credential is
absent, the HTTP status is non-success, or the response lacks the
assistant-text field.  A response carrying the field with the empty string
is a counterexample: the field is present (`some ""`), yet the source's
truthiness test `!data.choices?.[0]?.message?.content` rejects it and the
call throws. -/
theorem c7_empty_content_also_fails :
    ¬ specGenerateTextFails
        { apiKey := some "key", responseOk := true, responseStatus := 200,
          responseErrorText := "", contentField := some "" }
    ∧ (generateText
        { apiKey := some "key", responseOk := true, responseStatus := 200,
          responseErrorText := "", contentField := some "" }).1
      = .error "Invalid response from Grok API" := by
  constructor
  · intro h
    rcases h with h | h | h <;> simp_all
  · rfl

/-- C7 (amended): `generateText` fails iff the credential is absent, the
HTTP status is non-success, or the assistant-text field is absent *or
empty* (JavaScript truthiness); otherwise it returns the assistant's
text, and it never issues more than one HTTP request (no retry). -/
theorem c7_generate_text_failure_conditions (env : GrokEnv) :
    (isError (generateText env).1 = true ↔
      (env.apiKey = none ∨ env.responseOk = false ∨ env.contentField = none
        ∨ env.contentField = some ""))
    ∧ (∀ c : String, env.apiKey ≠ none → env.responseOk = true →
        env.contentField = some c → c ≠ "" → (generateText env).1 = .ok c)
    ∧ (generateText env).2 ≤ 1 := by
  obtain ⟨k, ok, st, et, cf⟩ := env
  refine ⟨?_, ?_, ?_⟩
  · cases k with
    | none => simp [generateText, isError]
    | some key =>
      cases ok with
      | false => simp [generateText, isError]
      | true =>
        cases cf with
        | none => simp [generateText, isError]
        | some c =>
          by_cases hc : c = "" <;> simp [generateText, isError, hc]
  · intro c hk hok hcf hc
    cases k with
    | none => exact absurd rfl hk
    | some key =>
      cases ok with
      | false => simp at hok
      | true =>
        simp only at hcf
        simp [generateText, hcf, hc]
  · cases k with
    | none => simp [generateText]
    | some key =>
      cases ok with
      | false => simp [generateText]
      | true =>
        cases cf with
        | none => simp [generateText]
        | some c =>
          by_cases hc : c = "" <;> simp [generateText, hc]

/-- C7 witness: a present credential, a success status and a non-empty
content field yield the assistant text. -/
theorem c7_generate_text_witness :
    (generateText
      { apiKey := some "k", responseOk := true, responseStatus := 200,
        responseErrorText := "", contentField := some "hello" }).1
    = .ok "hello" :=
  (c7_generate_text_failure_conditions _).2.1 "hello" (by simp) rfl rfl
    (by simp)

/-! ## C2 — the content-addressed identifiers -/

/-- C2: the claim states the identifier is a hash of the document/article
identifiers plus the participant keys, and that different participant
keys give different identifiers.  `generateInvestigativeReport` computes
`generateReportId(documents, investigation)` — the investigator keys are
not hashed — so two report runs over the same document with different
investigator keys get the *same* identifier. -/
theorem c2_report_id_ignores_investigators :
    reportRunId [{ documentId := "doc1" }] "Document Investigation"
        ["reporter", "privateEye"]
      = reportRunId [{ documentId := "doc1" }] "Document Investigation"
        ["host1", "host2"]
    ∧ (["reporter", "privateEye"] : List String) ≠ ["host1", "host2"] :=
  ⟨rfl, by decide⟩

/-- C2 (amended): the report identifier is a deterministic hash of the
document identifiers (`documentId || url || 'doc'`, comma-joined) plus
the investigation name — the investigator keys are not part of it — and
the podcast identifier is a deterministic hash of the article keys
(`url || title || id`, comma-joined) plus the comma-joined host keys. -/
theorem c2_identifier_dependence :
    (∀ (docs : List DocumentInput) (inv : String) (ks ks' : List String),
      reportRunId docs inv ks = reportRunId docs inv ks')
    ∧ (∀ (docs docs' : List DocumentInput) (inv : String),
        docs.map docKey = docs'.map docKey →
        generateReportId docs inv = generateReportId docs' inv)
    ∧ (∀ (arts arts' : List PodcastArticle) (hosts : List String),
        arts.map articleKey = arts'.map articleKey →
        generatePodcastId arts hosts = generatePodcastId arts' hosts) := by
  refine ⟨fun _ _ _ _ => rfl, ?_, ?_⟩
  · intro docs docs' inv h
    unfold generateReportId reportContent
    rw [h]
  · intro arts arts' hosts h
    unfold generatePodcastId podcastContent
    rw [h]

/-- C2 witness: documents differing only in fields outside the content
string (here, the summary) get the same report identifier, and articles
differing only in their body text get the same podcast identifier. -/
theorem c2_identifier_dependence_witness :
    generateReportId [{ documentId := "a", summary := some "s" }] "X"
      = generateReportId [{ documentId := "a" }] "X"
    ∧ generatePodcastId [{ id := "x", content := "body one" }] ["host1"]
      = generatePodcastId [{ id := "x", content := "body two" }] ["host1"] :=
  ⟨c2_identifier_dependence.2.1 _ _ "X" (by decide),
   c2_identifier_dependence.2.2 _ _ ["host1"] (by decide)⟩

/-! ## C5 — concatenation error behaviour -/

/-- C5: the claim states that a missing listed input file makes the
concatenation step fail.  It does not: both `concatenateAudioFiles`
implementations silently filter missing files out and merge the rest,
throwing only when *no* listed file exists.  Here `missing.mp3` does not
exist and the step still succeeds, merging only `a.mp3`. -/
theorem c5_missing_files_are_skipped :
    irConcatenateAudioFiles (fun p => p == "a.mp3") true true
        ["a.mp3", "missing.mp3"] "out.mp3" = .ok ["a.mp3"]
    ∧ podcastConcatenateAudioFiles (fun p => p == "a.mp3") true true
        ["a.mp3", "missing.mp3"] "out.mp3" = .ok ["a.mp3"] := by
  constructor <;> rfl

/-- C5 (amended): the concatenation step fails when *no* listed input
file exists, and when `ffmpeg` is available but its run fails; missing
input files are otherwise skipped (with a warning log), the merge
proceeding over exactly the existing subset — which is non-empty and
all-existing — rather than raising.  (Both the report and podcast
variants behave this way.) -/
theorem c5_concatenation_error_behaviour (fs : String → Bool)
    (fa fok : Bool) (files : List String) (out : String) :
    ((∀ f ∈ files, fs f = false) →
      irConcatenateAudioFiles fs fa fok files out
        = .error "No audio files to concatenate"
      ∧ podcastConcatenateAudioFiles fs fa fok files out
        = .error "No audio files to concatenate")
    ∧ ((∃ f ∈ files, fs f = true) → fa = true → fok = false →
      isError (irConcatenateAudioFiles fs fa fok files out) = true
      ∧ isError (podcastConcatenateAudioFiles fs fa fok files out) = true)
    ∧ (∀ merged, irConcatenateAudioFiles fs fa fok files out = .ok merged →
      merged = files.filter fs ∧ merged ≠ []
        ∧ ∀ f ∈ merged, fs f = true)
    ∧ (∀ merged,
        podcastConcatenateAudioFiles fs fa fok files out = .ok merged →
      merged = files.filter fs ∧ merged ≠ []
        ∧ ∀ f ∈ merged, fs f = true) := by
  have hfilter_nil : (∀ f ∈ files, fs f = false) → files.filter fs = [] := by
    intro h
    simpa [List.filter_eq_nil_iff] using fun f hf => by simp [h f hf]
  have hfilter_ne : (∃ f ∈ files, fs f = true) → files.filter fs ≠ [] := by
    rintro ⟨f, hf, hfs⟩ hnil
    have : f ∈ files.filter fs := List.mem_filter.mpr ⟨hf, hfs⟩
    simp [hnil] at this
  have hok_case : ∀ merged : List String,
      ¬ (files.filter fs).length = 0 → files.filter fs = merged →
      merged = files.filter fs ∧ merged ≠ [] ∧ ∀ f ∈ merged, fs f = true := by
    intro merged h0 hm
    subst hm
    refine ⟨rfl, ?_, fun f hf => (List.mem_filter.mp hf).2⟩
    intro hnil
    rw [hnil] at h0
    simp at h0
  refine ⟨?_, ?_, ?_, ?_⟩
  · intro h
    have h0 : files.filter fs = [] := hfilter_nil h
    constructor <;>
      simp [irConcatenateAudioFiles, podcastConcatenateAudioFiles, h0]
  · intro hex hfa hfok
    have hne : files.filter fs ≠ [] := hfilter_ne hex
    have hlen : ¬ (files.filter fs).length = 0 := by
      simpa [List.length_eq_zero] using hne
    subst hfa; subst hfok
    constructor <;>
      simp [irConcatenateAudioFiles, podcastConcatenateAudioFiles, hlen,
        isError]
  · intro merged hm
    unfold irConcatenateAudioFiles at hm
    by_cases h0 : (files.filter fs).length = 0
    · simp [h0] at hm
    · by_cases hfa : fa
      · by_cases hfok : fok
        · simp only [h0, if_false, hfa, if_true, hfok,
            Except.ok.injEq] at hm
          exact hok_case merged h0 hm
        · simp [h0, hfa, hfok] at hm
      · simp [h0, hfa] at hm
        exact hok_case merged h0 hm
  · intro merged hm
    unfold podcastConcatenateAudioFiles at hm
    by_cases h0 : (files.filter fs).length = 0
    · simp [h0] at hm
    · by_cases hfa : fa
      · by_cases hfok : fok
        · simp only [h0, if_false, hfa, if_true, hfok,
            Except.ok.injEq] at hm
          exact hok_case merged h0 hm
        · simp [h0, hfa, hfok] at hm
      · simp [h0, hfa] at hm
        exact hok_case merged h0 hm

/-- C5 witness: with no existing file the step errors; with one existing
file and a failing `ffmpeg` it errors; a successful merge contains
exactly the existing files. -/
theorem c5_concatenation_witness :
    ((∀ f ∈ (["x.mp3"] : List String), (fun _ => false) f = false)
      ∧ irConcatenateAudioFiles (fun _ => false) true true ["x.mp3"] "o"
          = .error "No audio files to concatenate")
    ∧ ((∃ f ∈ (["x.mp3"] : List String), (fun _ => true) f = true)
      ∧ isError (irConcatenateAudioFiles (fun _ => true) true false
          ["x.mp3"] "o") = true)
    ∧ (irConcatenateAudioFiles (fun p => p == "a.mp3") true true
        ["a.mp3", "missing.mp3"] "o" = .ok ["a.mp3"]
      ∧ (["a.mp3"] : List String)
          = (["a.mp3", "missing.mp3"] : List String).filter
              (fun p => p == "a.mp3")) := by
  refine ⟨⟨by simp, ?_⟩, ⟨⟨"x.mp3", by simp⟩, ?_⟩, ⟨rfl, by decide⟩⟩
  · exact (c5_concatenation_error_behaviour (fun _ => false) true true
      ["x.mp3"] "o").1 (by simp) |>.1
  · exact ((c5_concatenation_error_behaviour (fun _ => true) true false
      ["x.mp3"] "o").2.1 ⟨"x.mp3", by simp⟩ rfl rfl).1

/-! ## C8 — fail-fast validation of the report route -/

/-- C8: a request body whose `documents` field is missing, not an array,
or an empty array makes the route emit the single validation `error`
event and close the stream, with no external effect (in particular no
text-generation or speech-synthesis call). -/
theorem c8_validation_fails_fast (env : GenEnv) (cwd : String)
    (b : ReportRequestBody) :
    (b.docsField = .missing ∨ b.docsField = .notArray
      ∨ b.docsField = .arr []) →
    investigativeReportPOST env cwd (some b)
      = ([⟨"error", "Documents are required"⟩], []) := by
  intro h
  rcases h with h | h | h <;>
    simp [investigativeReportPOST, h]

/-- C8 witness: the empty-array body gets exactly the validation error
and an empty effect trace. -/
theorem c8_validation_witness :
    investigativeReportPOST
      ⟨fun _ => false, fun _ => "", fun _ => 0, true, true⟩ "/app"
      (some { docsField := .arr [] })
      = ([⟨"error", "Documents are required"⟩], []) :=
  c8_validation_fails_fast _ "/app" _ (Or.inr (Or.inr rfl))

/-! ## C1 — the finished-output cache -/

/-- C1: when the finished output file `<id>.mp3` already exists in the
audio directory, both generators return immediately with success, the
existing file name and its media URL, and an *empty* effect trace: no
text-generation call, no speech-synthesis call, no temporary directory
creation. -/
theorem c1_cache_hit_skips_generation (env : GenEnv) (cwd : String)
    (documents : List DocumentInput) (investigation : String)
    (investigators : List String) (target : ℚ)
    (articles : List PodcastArticle) (hosts : List String) (ptarget : ℚ) :
    (env.fsExists (pathJoin (pathJoin cwd "generated-audio")
        (generateReportId documents investigation ++ ".mp3")) = true →
      generateInvestigativeReport env cwd documents investigation
          investigators target
        = ({ success := true,
             audioFile := some
               (generateReportId documents investigation ++ ".mp3"),
             audioUrl := some ("/api/generate/media?id="
               ++ generateReportId documents investigation ++ ".mp3") },
           []))
    ∧ (env.fsExists (pathJoin (pathJoin cwd "generated-audio")
        (generatePodcastId articles hosts ++ ".mp3")) = true →
      generatePodcast env cwd articles hosts ptarget
        = ({ success := true,
             audioFile := some (generatePodcastId articles hosts ++ ".mp3"),
             audioUrl := some ("/api/generate/media?id="
               ++ generatePodcastId articles hosts ++ ".mp3") },
           [])) := by
  constructor
  · intro h
    simp [generateInvestigativeReport, h]
  · intro h
    simp [generatePodcast, h]

/-- The existing report file of the C1 witness. -/
def c1ReportPath : String :=
  pathJoin (pathJoin "/app" "generated-audio")
    (generateReportId [{ documentId := "d1" }] "Inv" ++ ".mp3")

/-- The existing podcast file of the C1 witness. -/
def c1PodcastPath : String :=
  pathJoin (pathJoin "/app" "generated-audio")
    (generatePodcastId [{ id := "a1", content := "c" }] ["host1", "host2"]
      ++ ".mp3")

/-- C1 witness: with the finished file on disk, a run returns it with an
empty effect trace, for both generators. -/
theorem c1_cache_hit_witness :
    generateInvestigativeReport
        ⟨fun p => p == c1ReportPath, fun _ => "", fun _ => 0, true, true⟩
        "/app" [{ documentId := "d1" }] "Inv" ["reporter", "privateEye"] 60
      = ({ success := true,
           audioFile := some
             (generateReportId [{ documentId := "d1" }] "Inv" ++ ".mp3"),
           audioUrl := some ("/api/generate/media?id="
             ++ generateReportId [{ documentId := "d1" }] "Inv" ++ ".mp3") },
         [])
    ∧ generatePodcast
        ⟨fun p => p == c1PodcastPath, fun _ => "", fun _ => 0, true, true⟩
        "/app" [{ id := "a1", content := "c" }] ["host1", "host2"] 60
      = ({ success := true,
           audioFile := some (generatePodcastId
             [{ id := "a1", content := "c" }] ["host1", "host2"] ++ ".mp3"),
           audioUrl := some ("/api/generate/media?id="
             ++ generatePodcastId [{ id := "a1", content := "c" }]
                 ["host1", "host2"] ++ ".mp3") },
         []) :=
  ⟨(c1_cache_hit_skips_generation _ "/app" _ "Inv" _ 60 [] [] 0).1
      (by simp [c1ReportPath]),
   (c1_cache_hit_skips_generation
      ⟨fun p => p == c1PodcastPath, fun _ => "", fun _ => 0, true, true⟩
      "/app" [] "" [] 0 _ _ 60).2 (by simp [c1PodcastPath])⟩

/-! ## C3 — loop termination and the turn cap -/

/-- The turn index advances by one per content turn. -/
theorem contentTurn_turnIndex (env : GenEnv) (clean : String → String)
    (s1 s2 : SpeakerSlot) (dir : String) (cr : Bool) (st : LoopState) :
    (contentTurn env clean s1 s2 dir cr st).turnIndex = st.turnIndex + 1 :=
  rfl

/-- The report's inner group loop generates at most `j` turns. -/
theorem irGroupTurns_turnIndex_le (env : GenEnv) (s1 s2 : SpeakerSlot)
    (dir : String) (target : ℚ) :
    ∀ (j : ℕ) (st : LoopState),
      (irGroupTurns env s1 s2 dir target j st).turnIndex
        ≤ st.turnIndex + j := by
  intro j
  induction j with
  | zero => intro st; simp [irGroupTurns]
  | succ j ih =>
    intro st
    unfold irGroupTurns
    by_cases h : belowFrac st.duration target 4 5 = true
    · rw [if_pos h]
      have := ih (contentTurn env cleanInvestigatorComment s1 s2 dir false st)
      rw [contentTurn_turnIndex] at this
      omega
    · rw [if_neg h]
      omega

/-- The report's content loop generates at most two turns per related
group: it is bounded by the document grouping, not by a fixed turn cap. -/
theorem irContentLoop_turnIndex_le (env : GenEnv) (s1 s2 : SpeakerSlot)
    (dir : String) (target : ℚ) :
    ∀ (groups : List (List DocumentInput)) (st : LoopState),
      (irContentLoop env s1 s2 dir target groups st).turnIndex
        ≤ st.turnIndex + 2 * groups.length := by
  intro groups
  induction groups with
  | nil => intro st; simp [irContentLoop]
  | cons g gs ih =>
    intro st
    unfold irContentLoop
    by_cases h : belowFrac st.duration target 4 5 = true
    · rw [if_pos h]
      have h1 := ih (irGroupTurns env s1 s2 dir target 2 st)
      have h2 := irGroupTurns_turnIndex_le env s1 s2 dir target 2 st
      simp only [List.length_cons]
      omega
    · rw [if_neg h]
      simp only [List.length_cons]
      omega

/-- The podcast loop's hard cap: whatever the fuel, the final turn index
never exceeds `max (start + 1) 21` — from the run's start at turn index 2,
at most 19 content turns. -/
theorem podcastLoopAux_turnIndex_le (env : GenEnv) (s1 s2 : SpeakerSlot)
    (dir : String) (target : ℚ) :
    ∀ (fuel : ℕ) (st : LoopState),
      (podcastLoopAux env s1 s2 dir target fuel st).turnIndex
        ≤ max (st.turnIndex + 1) 21 := by
  intro fuel
  induction fuel with
  | zero =>
    intro st
    unfold podcastLoopAux
    omega
  | succ fuel ih =>
    intro st
    unfold podcastLoopAux
    by_cases h : belowFrac st.duration target 3 4 = true
    · rw [if_pos h]
      set st' := contentTurn env cleanHostComment s1 s2 dir true st with hst'
      have hti : st'.turnIndex = st.turnIndex + 1 := contentTurn_turnIndex ..
      by_cases hcap : st'.turnIndex > 20
      · rw [if_pos hcap]
        omega
      · rw [if_neg hcap]
        have := ih st'
        omega
    · rw [if_neg h]
      omega

/-- Twenty-two documents forming eleven related pairs (each pair shares
one name; pairs are mutually unrelated). -/
def c3docs : List DocumentInput :=
  (List.range 11).flatMap (fun i =>
    [{ documentId := "A" ++ toString i, names := ["N" ++ toString i] },
     { documentId := "B" ++ toString i, names := ["N" ++ toString i] }])

/-- A run environment whose text oracle always returns the empty string
(the most pessimistic per-turn duration estimate: one second per turn). -/
def c3env : GenEnv :=
  ⟨fun _ => false, fun _ => "", fun _ => 0, true, true⟩

/-- The loop state after the opening and response turns of a run whose
oracle returns empty text. -/
def c3state : LoopState :=
  { dialogue := [], audioFiles := [], duration := 0, turnIndex := 2,
    speakerIdx := 0, callIdx := 2, randIdx := 1, fx := [] }

/-- C3: the claim asserts a hard 20-turn ceiling in *both* generators.
`generateInvestigativeReport` has none: its content loop runs two turns
for every related document group.  With eleven related pairs, a
60-second target and pessimistically short generated turns (the oracle
returns empty text, each turn contributing one estimated second, far
below the 48-second threshold), the loop generates 22 content turns —
the turn index reaches 24 from 2 — exceeding the claimed cap of 20. -/
theorem c3_report_loop_exceeds_twenty_turns :
    (groupRelatedDocuments c3docs).relatedGroups.length = 11
    ∧ (irContentLoop c3env ⟨"reporter", reporterPersonality⟩
        ⟨"privateEye", privateEyePersonality⟩ "/app/generated-audio/r" 60
        (groupRelatedDocuments c3docs).relatedGroups c3state).turnIndex = 24
    ∧ 2 + 20 < 24 := by
  exact ⟨by decide, by decide, by decide⟩

/-- C3 (amended): both content loops terminate on every input, and turns
are generated only while the accumulated estimated duration is below the
threshold (75% of the target for the podcast, 80% for the report) — but
only `generatePodcast` enforces a hard turn-count ceiling (break once the
turn index passes 20, hence at most 19 content turns from the start index
2); the report's loop is bounded by two turns per related document group
and can exceed 20 turns. -/
theorem c3_loop_termination_bounds :
    (∀ (env : GenEnv) (s1 s2 : SpeakerSlot) (dir : String) (target : ℚ)
        (st : LoopState),
      (podcastContentLoop env s1 s2 dir target st).turnIndex
        ≤ max (st.turnIndex + 1) 21)
    ∧ (∀ (env : GenEnv) (s1 s2 : SpeakerSlot) (dir : String) (target : ℚ)
        (st : LoopState),
      ¬ ((st.duration : ℚ) < target * ((3 : ℚ) / 4)) →
      podcastContentLoop env s1 s2 dir target st = st)
    ∧ (∀ (env : GenEnv) (s1 s2 : SpeakerSlot) (dir : String) (target : ℚ)
        (groups : List (List DocumentInput)) (st : LoopState),
      (irContentLoop env s1 s2 dir target groups st).turnIndex
        ≤ st.turnIndex + 2 * groups.length)
    ∧ (∀ (env : GenEnv) (s1 s2 : SpeakerSlot) (dir : String) (target : ℚ)
        (groups : List (List DocumentInput)) (st : LoopState),
      ¬ ((st.duration : ℚ) < target * ((4 : ℚ) / 5)) →
      irContentLoop env s1 s2 dir target groups st = st) := by
  refine ⟨?_, ?_, ?_, ?_⟩
  · intro env s1 s2 dir target st
    exact podcastLoopAux_turnIndex_le env s1 s2 dir target 22 st
  · intro env s1 s2 dir target st h
    have hb : belowFrac st.duration target 3 4 = false := by
      rw [← Bool.not_eq_true]
      intro hb
      apply h
      have := (belowFrac_iff st.duration target 3 4 (by norm_num)).mp hb
      simpa using this
    simp [podcastContentLoop, podcastLoopAux, hb]
  · intro env s1 s2 dir target groups st
    exact irContentLoop_turnIndex_le env s1 s2 dir target groups st
  · intro env s1 s2 dir target groups st h
    have hb : belowFrac st.duration target 4 5 = false := by
      rw [← Bool.not_eq_true]
      intro hb
      apply h
      have := (belowFrac_iff st.duration target 4 5 (by norm_num)).mp hb
      simpa using this
    cases groups with
    | nil => rfl
    | cons g gs => simp [irContentLoop, hb]

/-- C3 witness: an already-saturated state (duration at or above the
threshold, with target 0) is returned unchanged by both loops, and the
cap bound applies to it. -/
theorem c3_loop_termination_bounds_witness :
    ((podcastContentLoop c3env ⟨"host1", host1Personality⟩
        ⟨"host2", host2Personality⟩ "/d" 0 c3state).turnIndex
      ≤ max (c3state.turnIndex + 1) 21)
    ∧ (¬ ((c3state.duration : ℚ) < (0 : ℚ) * ((3 : ℚ) / 4))
      ∧ podcastContentLoop c3env ⟨"host1", host1Personality⟩
          ⟨"host2", host2Personality⟩ "/d" 0 c3state = c3state)
    ∧ (¬ ((c3state.duration : ℚ) < (0 : ℚ) * ((4 : ℚ) / 5))
      ∧ irContentLoop c3env ⟨"reporter", reporterPersonality⟩
          ⟨"privateEye", privateEyePersonality⟩ "/d" 0
          [[{ documentId := "x" }]] c3state = c3state) := by
  have h3 : ¬ ((c3state.duration : ℚ) < (0 : ℚ) * ((3 : ℚ) / 4)) := by
    simp [c3state]
  have h4 : ¬ ((c3state.duration : ℚ) < (0 : ℚ) * ((4 : ℚ) / 5)) := by
    simp [c3state]
  exact ⟨c3_loop_termination_bounds.1 c3env _ _ "/d" 0 c3state,
    ⟨h3, c3_loop_termination_bounds.2.1 c3env _ _ "/d" 0 c3state h3⟩,
    ⟨h4, c3_loop_termination_bounds.2.2.2 c3env _ _ "/d" 0 _ c3state h4⟩⟩

/-! ## C10 — invariants of `groupRelatedDocuments` -/

/-- The inner loop's final `used` set is its input extended by exactly
the identifiers of the documents it collected, in order. -/
theorem collectRelated_snd (d : DocumentInput) :
    ∀ (os : List DocumentInput) (used : List String),
      (collectRelated d os used).2
        = used ++ ((collectRelated d os used).1).map
            (fun x => x.documentId) := by
  intro os
  induction os with
  | nil => intro used; simp [collectRelated]
  | cons o os ih =>
    intro used
    unfold collectRelated
    by_cases h1 : o.documentId ∈ used
    · rw [if_pos h1]
      exact ih used
    · rw [if_neg h1]
      by_cases h2 : hasOverlap d o = true
      · rw [if_pos h2]
        simp only [List.map_cons]
        rw [ih (used ++ [o.documentId])]
        simp
      · rw [if_neg h2]
        exact ih used

/-- The documents collected by the inner loop were not already used, and
their identifiers are pairwise distinct. -/
theorem collectRelated_fresh (d : DocumentInput) :
    ∀ (os : List DocumentInput) (used : List String),
      (∀ x ∈ (collectRelated d os used).1, x.documentId ∉ used)
      ∧ (((collectRelated d os used).1).map
          (fun x => x.documentId)).Nodup := by
  intro os
  induction os with
  | nil => intro used; simp [collectRelated]
  | cons o os ih =>
    intro used
    unfold collectRelated
    by_cases h1 : o.documentId ∈ used
    · rw [if_pos h1]
      exact ih used
    · rw [if_neg h1]
      by_cases h2 : hasOverlap d o = true
      · rw [if_pos h2]
        obtain ⟨ihf, ihn⟩ := ih (used ++ [o.documentId])
        constructor
        · intro x hx
          rcases List.mem_cons.mp hx with rfl | hx
          · exact h1
          · intro hx'
            exact ihf x hx (List.mem_append_left _ hx')
        · simp only [List.map_cons, List.nodup_cons]
          refine ⟨?_, ihn⟩
          intro hmem
          rcases List.mem_map.mp hmem with ⟨x, hx, hxid⟩
          exact ihf x hx (List.mem_append_right _ (by simp [hxid]))
      · rw [if_neg h2]
        exact ih used

/-- The outer loop only ever extends the `used` set. -/
theorem groupLoop_used_mono (arr : List DocumentInput) :
    ∀ (ds : List DocumentInput) (used : List String) (x : String),
      x ∈ used → x ∈ (groupLoop arr ds used).2 := by
  intro ds
  induction ds with
  | nil => intro used x hx; simpa [groupLoop] using hx
  | cons d ds ih =>
    intro used x hx
    unfold groupLoop
    by_cases h1 : d.documentId ∈ used
    · rw [if_pos h1]
      exact ih used x hx
    · rw [if_neg h1]
      simp only []
      have hx2 : x ∈ (collectRelated d arr (used ++ [d.documentId])).2 := by
        rw [collectRelated_snd]
        exact List.mem_append_left _ (List.mem_append_left _ hx)
      have := ih (collectRelated d arr (used ++ [d.documentId])).2 x hx2
      by_cases hlen : (d :: (collectRelated d arr
          (used ++ [d.documentId])).1).length > 1
      · rw [if_pos hlen]
        exact this
      · rw [if_neg hlen]
        exact this

/-- Every document handed to the outer loop ends up marked used —
including documents that match nothing and form no group. -/
theorem groupLoop_processed (arr : List DocumentInput) :
    ∀ (ds : List DocumentInput) (used : List String),
      ∀ d ∈ ds, d.documentId ∈ (groupLoop arr ds used).2 := by
  intro ds
  induction ds with
  | nil => intro used d hd; simp at hd
  | cons d0 ds ih =>
    intro used d hd
    rcases List.mem_cons.mp hd with rfl | hd
    · unfold groupLoop
      by_cases h1 : d.documentId ∈ used
      · rw [if_pos h1]
        exact groupLoop_used_mono arr ds used _ h1
      · rw [if_neg h1]
        simp only []
        have hx2 : d.documentId
            ∈ (collectRelated d arr (used ++ [d.documentId])).2 := by
          rw [collectRelated_snd]
          exact List.mem_append_left _ (List.mem_append_right _ (by simp))
        have := groupLoop_used_mono arr ds
          (collectRelated d arr (used ++ [d.documentId])).2 _ hx2
        by_cases hlen : (d :: (collectRelated d arr
            (used ++ [d.documentId])).1).length > 1
        · rw [if_pos hlen]; exact this
        · rw [if_neg hlen]; exact this
    · unfold groupLoop
      by_cases h1 : d0.documentId ∈ used
      · rw [if_pos h1]
        exact ih used d hd
      · rw [if_neg h1]
        simp only []
        have := ih (collectRelated d0 arr (used ++ [d0.documentId])).2 d hd
        by_cases hlen : (d0 :: (collectRelated d0 arr
            (used ++ [d0.documentId])).1).length > 1
        · rw [if_pos hlen]; exact this
        · rw [if_neg hlen]; exact this

/-- The groups emitted by the outer loop all have at least two members
with pairwise-distinct identifiers, none of them already used, and the
groups are pairwise disjoint by identifier. -/
theorem groupLoop_groups (arr : List DocumentInput) :
    ∀ (ds : List DocumentInput) (used : List String),
      (∀ g ∈ (groupLoop arr ds used).1,
        2 ≤ g.length
        ∧ (g.map (fun x => x.documentId)).Nodup
        ∧ ∀ x ∈ g, x.documentId ∉ used)
      ∧ (groupLoop arr ds used).1.Pairwise
          (fun g₁ g₂ => ∀ x ∈ g₁, ∀ y ∈ g₂,
            x.documentId ≠ y.documentId) := by
  intro ds
  induction ds with
  | nil => intro used; simp [groupLoop]
  | cons d ds ih =>
    intro used
    unfold groupLoop
    by_cases h1 : d.documentId ∈ used
    · rw [if_pos h1]
      exact ih used
    · rw [if_neg h1]
      simp only []
      set C := collectRelated d arr (used ++ [d.documentId]) with hC
      obtain ⟨cfresh, cnodup⟩ :=
        collectRelated_fresh d arr (used ++ [d.documentId])
      rw [← hC] at cfresh cnodup
      have csnd := collectRelated_snd d arr (used ++ [d.documentId])
      rw [← hC] at csnd
      obtain ⟨ihprops, ihpw⟩ := ih C.2
      -- members of later groups avoid everything recorded in C.2
      have hlater : ∀ g ∈ (groupLoop arr ds C.2).1, ∀ y ∈ g,
          y.documentId ∉ C.2 := by
        intro g hg y hy
        exact ((ihprops g hg).2.2 y hy)
      have hgroup_nodup : ((d :: C.1).map (fun x => x.documentId)).Nodup := by
        simp only [List.map_cons, List.nodup_cons]
        constructor
        · intro hmem
          rcases List.mem_map.mp hmem with ⟨x, hx, hxid⟩
          exact cfresh x hx (List.mem_append_right _ (by simp [hxid]))
        · exact cnodup
      have hgroup_fresh : ∀ x ∈ (d :: C.1), x.documentId ∉ used := by
        intro x hx
        rcases List.mem_cons.mp hx with rfl | hx
        · exact h1
        · intro hx'
          exact cfresh x hx (List.mem_append_left _ hx')
      by_cases hlen : (d :: C.1).length > 1
      · rw [if_pos hlen]
        constructor
        · intro g hg
          rcases List.mem_cons.mp hg with rfl | hg
          · exact ⟨by simpa using hlen, hgroup_nodup, hgroup_fresh⟩
          · obtain ⟨hl, hn, hf⟩ := ihprops g hg
            refine ⟨hl, hn, fun x hx hx' => hf x hx ?_⟩
            rw [csnd]
            exact List.mem_append_left _ (List.mem_append_left _ hx')
        · rw [List.pairwise_cons]
          constructor
          · intro g hg x hx y hy
            have hyid : y.documentId ∉ C.2 := hlater g hg y hy
            rw [csnd] at hyid
            intro hxy
            apply hyid
            rcases List.mem_cons.mp hx with rfl | hx
            · exact List.mem_append_left _
                (List.mem_append_right _ (by simp [hxy]))
            · exact List.mem_append_right _
                (List.mem_map.mpr ⟨x, hx, hxy⟩)
          · exact ihpw
      · rw [if_neg hlen]
        constructor
        · intro g hg
          obtain ⟨hl, hn, hf⟩ := ihprops g hg
          refine ⟨hl, hn, fun x hx hx' => hf x hx ?_⟩
          rw [csnd]
          exact List.mem_append_left _ (List.mem_append_left _ hx')
        · exact ihpw

/-- C10: `groupRelatedDocuments` marks every unique document used —
including documents that match nothing — so the returned `unrelated` list
is empty for every input, while the returned groups are pairwise disjoint
and each contains at least two documents with pairwise-distinct
identifiers. -/
theorem c10_grouping_invariants (documents : List DocumentInput) :
    (groupRelatedDocuments documents).unrelated = []
    ∧ (∀ g ∈ (groupRelatedDocuments documents).relatedGroups,
        2 ≤ g.length ∧ (g.map (fun x => x.documentId)).Nodup)
    ∧ (groupRelatedDocuments documents).relatedGroups.Pairwise
        (fun g₁ g₂ => ∀ x ∈ g₁, ∀ y ∈ g₂,
          x.documentId ≠ y.documentId) := by
  unfold groupRelatedDocuments
  simp only []
  set arr := uniqueById documents [] with harr
  refine ⟨?_, ?_, ?_⟩
  · rw [List.filter_eq_nil_iff]
    intro d hd
    simp only [decide_eq_true_eq, Decidable.not_not]
    exact groupLoop_processed arr arr [] d hd
  · intro g hg
    obtain ⟨hl, hn, _⟩ := (groupLoop_groups arr arr []).1 g hg
    exact ⟨hl, hn⟩
  · exact (groupLoop_groups arr arr []).2

/-- C10 witness: two overlapping documents form one two-member group with
distinct identifiers and an empty `unrelated` list. -/
theorem c10_grouping_invariants_witness :
    (groupRelatedDocuments
      [{ documentId := "a", names := ["n"] },
       { documentId := "b", names := ["n"] }]).unrelated = []
    ∧ (2 ≤ ([{ documentId := "a", names := ["n"] },
              { documentId := "b", names := ["n"] }] :
              List DocumentInput).length
       ∧ (([{ documentId := "a", names := ["n"] },
            { documentId := "b", names := ["n"] }] :
            List DocumentInput).map (fun x => x.documentId)).Nodup) :=
  ⟨(c10_grouping_invariants _).1,
   (c10_grouping_invariants
      [{ documentId := "a", names := ["n"] },
       { documentId := "b", names := ["n"] }]).2.1 _ (by decide)⟩

/-! ## C6 — media route path safety

The lemmas below characterize the path algebra: segments produced by
splitting contain no separator, normalization stacks are clean, rendering
then re-parsing a clean stack is the identity, and joining a basename to
a directory extends the directory's segment stack by at most one clean
segment.  Together they show every `200` response of the media route
serves a path whose normalized segments are the audio directory's,
possibly extended by one slash-free segment — i.e. the directory itself
or a direct child, never an outside file. -/

/-- A clean segment: non-empty, not `.` or `..`, and slash-free — what a
normalization stack contains. -/
def cleanSeg (s : List Char) : Prop :=
  s ≠ [] ∧ s ≠ ['.'] ∧ s ≠ ['.', '.'] ∧ '/' ∉ s

/-- Segments produced by splitting contain no separator. -/
theorem splitSlashAux_no_slash :
    ∀ (cs acc : List Char), '/' ∉ acc →
      ∀ s ∈ splitSlashAux cs acc, '/' ∉ s := by
  intro cs
  induction cs with
  | nil =>
    intro acc hacc s hs
    simp only [splitSlashAux, List.mem_singleton] at hs
    subst hs
    simpa using hacc
  | cons c cs ih =>
    intro acc hacc s hs
    unfold splitSlashAux at hs
    by_cases hc : c = '/'
    · rw [if_pos hc] at hs
      rcases List.mem_cons.mp hs with rfl | hs
      · simpa using hacc
      · exact ih [] (by simp) s hs
    · rw [if_neg hc] at hs
      refine ih (c :: acc) ?_ s hs
      intro hmem
      rcases List.mem_cons.mp hmem with h | h
      · exact hc h.symm
      · exact hacc h

/-- Members of `splitSlash` are slash-free. -/
theorem splitSlash_no_slash (cs : List Char) :
    ∀ s ∈ splitSlash cs, '/' ∉ s :=
  splitSlashAux_no_slash cs [] (by simp)

/-- Splitting distributes over a separator. -/
theorem splitSlashAux_append :
    ∀ (a acc b : List Char),
      splitSlashAux (a ++ '/' :: b) acc
        = splitSlashAux a acc ++ splitSlash b := by
  intro a
  induction a with
  | nil =>
    intro acc b
    simp [splitSlashAux, splitSlash]
  | cons c cs ih =>
    intro acc b
    rw [List.cons_append]
    by_cases hc : c = '/'
    · have l1 : splitSlashAux (c :: (cs ++ '/' :: b)) acc
          = acc.reverse :: splitSlashAux (cs ++ '/' :: b) [] := by
        simp only [splitSlashAux, if_pos hc]
      have l2 : splitSlashAux (c :: cs) acc
          = acc.reverse :: splitSlashAux cs [] := by
        simp only [splitSlashAux, if_pos hc]
      rw [l1, l2, ih [] b]
      simp [splitSlash]
    · have l1 : splitSlashAux (c :: (cs ++ '/' :: b)) acc
          = splitSlashAux (cs ++ '/' :: b) (c :: acc) := by
        simp only [splitSlashAux, if_neg hc]
      have l2 : splitSlashAux (c :: cs) acc
          = splitSlashAux cs (c :: acc) := by
        simp only [splitSlashAux, if_neg hc]
      rw [l1, l2, ih (c :: acc) b]

/-- Splitting a slash-free list yields that single segment. -/
theorem splitSlashAux_no_sep :
    ∀ (cs acc : List Char), '/' ∉ cs →
      splitSlashAux cs acc = [acc.reverse ++ cs] := by
  intro cs
  induction cs with
  | nil => intro acc _; simp [splitSlashAux]
  | cons c cs ih =>
    intro acc hcs
    have hc : ¬ c = '/' := by
      intro h
      exact hcs (by simp [h])
    unfold splitSlashAux
    rw [if_neg hc, ih (c :: acc) (fun h => hcs (List.mem_cons_of_mem _ h))]
    simp

/-- `splitSlash` of a slash-free list. -/
theorem splitSlash_single (cs : List Char) (h : '/' ∉ cs) :
    splitSlash cs = [cs] := by
  unfold splitSlash
  rw [splitSlashAux_no_sep cs [] h]
  simp

/-- The normalization stack processes concatenated segment lists in
sequence. -/
theorem normStack_append :
    ∀ (s₁ s₂ : List (List Char)) (st : List (List Char)),
      normStack (s₁ ++ s₂) st = normStack s₂ (normStack s₁ st) := by
  intro s₁
  induction s₁ with
  | nil => intro s₂ st; simp [normStack]
  | cons s ss ih =>
    intro s₂ st
    rw [List.cons_append]
    simp only [normStack]
    by_cases h1 : s = [] ∨ s = ['.']
    · rw [if_pos h1, if_pos h1]
      exact ih s₂ st
    · rw [if_neg h1, if_neg h1]
      by_cases h2 : s = ['.', '.']
      · rw [if_pos h2, if_pos h2]
        exact ih s₂ _
      · rw [if_neg h2, if_neg h2]
        exact ih s₂ _

/-- Normalization keeps the stack clean. -/
theorem normStack_clean :
    ∀ (segs st : List (List Char)), (∀ s ∈ st, cleanSeg s) →
      (∀ s ∈ segs, '/' ∉ s) →
      ∀ s ∈ normStack segs st, cleanSeg s := by
  intro segs
  induction segs with
  | nil => intro st hst _ s hs; exact hst s hs
  | cons s0 ss ih =>
    intro st hst hsegs s hs
    simp only [normStack] at hs
    by_cases h1 : s0 = [] ∨ s0 = ['.']
    · rw [if_pos h1] at hs
      exact ih st hst (fun x hx => hsegs x (List.mem_cons_of_mem _ hx)) s hs
    · rw [if_neg h1] at hs
      by_cases h2 : s0 = ['.', '.']
      · rw [if_pos h2] at hs
        refine ih st.dropLast ?_
          (fun x hx => hsegs x (List.mem_cons_of_mem _ hx)) s hs
        intro x hx
        exact hst x (List.dropLast_subset _ hx)
      · rw [if_neg h2] at hs
        refine ih (st ++ [s0]) ?_
          (fun x hx => hsegs x (List.mem_cons_of_mem _ hx)) s hs
        intro x hx
        rcases List.mem_append.mp hx with hx | hx
        · exact hst x hx
        · have hx' : x = s0 := List.mem_singleton.mp hx
          subst hx'
          exact ⟨fun h => h1 (Or.inl h), fun h => h1 (Or.inr h), h2,
            hsegs x (List.mem_cons_self _ _)⟩

/-- A clean segment list passes through the normalization stack
verbatim. -/
theorem normStack_clean_id :
    ∀ (st acc : List (List Char)), (∀ s ∈ st, cleanSeg s) →
      normStack st acc = acc ++ st := by
  intro st
  induction st with
  | nil => intro acc _; simp [normStack]
  | cons s ss ih =>
    intro acc hst
    obtain ⟨h1, h2, h3, _⟩ := hst s (List.mem_cons_self _ _)
    simp only [normStack]
    rw [if_neg (by tauto), if_neg h3,
      ih (acc ++ [s]) (fun x hx => hst x (List.mem_cons_of_mem _ hx))]
    simp

/-- Re-splitting joined slash-free segments recovers them. -/
theorem splitSlash_joinSegs :
    ∀ segs : List (List Char), segs ≠ [] → (∀ s ∈ segs, '/' ∉ s) →
      splitSlash (joinSegs segs) = segs := by
  intro segs
  induction segs with
  | nil => intro h _; exact absurd rfl h
  | cons s ss ih =>
    intro _ hfree
    cases ss with
    | nil =>
      exact splitSlash_single s (hfree s (List.mem_cons_self _ _))
    | cons t ts =>
      show splitSlash (s ++ '/' :: joinSegs (t :: ts)) = s :: t :: ts
      unfold splitSlash
      rw [splitSlashAux_append s [] (joinSegs (t :: ts))]
      rw [splitSlashAux_no_sep s [] (hfree s (List.mem_cons_self _ _))]
      rw [show splitSlash (joinSegs (t :: ts)) = t :: ts from
        ih (by simp) (fun x hx => hfree x (List.mem_cons_of_mem _ hx))]
      simp

/-- Splitting a rendered non-empty clean stack gives a leading empty
segment followed by the stack. -/
theorem splitSlash_renderAbs_cons (s : List Char) (ss : List (List Char))
    (h : ∀ x ∈ s :: ss, cleanSeg x) :
    splitSlash (renderAbs (s :: ss)) = [] :: s :: ss := by
  show splitSlash ('/' :: joinSegs (s :: ss)) = [] :: s :: ss
  have hstep : ∀ xs : List Char,
      splitSlash ('/' :: xs) = [] :: splitSlash xs := by
    intro xs
    simp [splitSlash, splitSlashAux]
  rw [hstep, splitSlash_joinSegs (s :: ss) (by simp)
    (fun x hx => (h x hx).2.2.2)]

/-- The normalized segments of a string, the core of `path.resolve`. -/
def pathSegments (p : String) : List (List Char) :=
  normStack (splitSlash p.data) []

/-- Parsing a normalized path recovers its segment stack. -/
theorem pathSegments_mk_absNorm (x : List Char) :
    pathSegments ⟨absNorm x⟩ = normStack (splitSlash x) [] := by
  have hclean : ∀ s ∈ normStack (splitSlash x) [], cleanSeg s :=
    normStack_clean (splitSlash x) [] (by simp) (splitSlash_no_slash x)
  unfold pathSegments absNorm
  cases hst : normStack (splitSlash x) [] with
  | nil => decide
  | cons s ss =>
    rw [hst] at hclean
    show normStack (splitSlash (renderAbs (s :: ss))) [] = s :: ss
    rw [splitSlash_renderAbs_cons s ss hclean]
    show normStack (s :: ss) [] = s :: ss
    rw [normStack_clean_id (s :: ss) [] hclean]
    simp

/-- The segments of a join: the directory's stack fed the basename's
segments. -/
theorem pathSegments_join (a b : String) :
    pathSegments (pathJoin a b)
      = normStack (splitSlash b.data) (pathSegments a) := by
  show pathSegments ⟨absNorm (a.data ++ '/' :: b.data)⟩ = _
  rw [pathSegments_mk_absNorm]
  have : splitSlash (a.data ++ '/' :: b.data)
      = splitSlash a.data ++ splitSlash b.data := splitSlashAux_append ..
  rw [this, normStack_append]
  rfl

/-- `path.resolve` renders the normalized segments. -/
theorem pathResolve_data (p : String) :
    (pathResolve p).data = renderAbs (pathSegments p) := rfl

/-- Appending one segment to a non-empty join adds a separator. -/
theorem joinSegs_append_singleton :
    ∀ (init : List (List Char)) (l : List Char),
      joinSegs (init ++ [l])
        = if init = [] then l else joinSegs init ++ '/' :: l := by
  intro init
  induction init with
  | nil => intro l; simp [joinSegs]
  | cons s ss ih =>
    intro l
    cases ss with
    | nil => simp [joinSegs]
    | cons t ts =>
      show s ++ '/' :: joinSegs ((t :: ts) ++ [l]) = _
      rw [ih l]
      simp [joinSegs]

/-- Dropping the last segment of a non-empty clean stack strictly
shortens the rendering — the parent directory's path is shorter. -/
theorem renderAbs_dropLast_length_lt (st : List (List Char))
    (hclean : ∀ s ∈ st, cleanSeg s) (hne : st ≠ []) :
    (renderAbs st.dropLast).length < (renderAbs st).length := by
  obtain ⟨init, l, rfl⟩ : ∃ init l, st = init ++ [l] :=
    ⟨st.dropLast, st.getLast hne, (List.dropLast_append_getLast hne).symm⟩
  have hlclean : cleanSeg l := hclean l (by simp)
  have hllen : 1 ≤ l.length := List.length_pos.mpr hlclean.1
  rw [List.dropLast_concat]
  cases init with
  | nil =>
    show (renderAbs []).length < ('/' :: joinSegs [l]).length
    simp [renderAbs, joinSegs]
    omega
  | cons s ss =>
    show ('/' :: joinSegs (s :: ss)).length
      < ('/' :: joinSegs ((s :: ss) ++ [l])).length
    rw [joinSegs_append_singleton (s :: ss) l, if_neg (by simp)]
    simp

/-- `path.basename` returns `/`, the empty string, or one non-empty
slash-free segment of its input. -/
theorem pathBasename_cases (id : String) :
    (pathBasename id).data = ['/'] ∨ (pathBasename id).data = []
    ∨ ('/' ∉ (pathBasename id).data ∧ (pathBasename id).data ≠ []) := by
  cases hgl : ((splitSlash id.data).filter
      (fun s => ¬ s.isEmpty)).getLast? with
  | none =>
    have hb : pathBasename id
        = if id.data.head? = some '/' then "/" else "" := by
      unfold pathBasename
      rw [hgl]
    by_cases hh : id.data.head? = some '/'
    · rw [hb, if_pos hh]
      exact Or.inl rfl
    · rw [hb, if_neg hh]
      exact Or.inr (Or.inl rfl)
  | some s =>
    have hb : pathBasename id = ⟨s⟩ := by
      unfold pathBasename
      rw [hgl]
    right; right
    rw [hb]
    show '/' ∉ s ∧ s ≠ []
    have hmem0 : s ∈ ((splitSlash id.data).filter (fun s => ¬ s.isEmpty)) := by
      have hmem1 : s ∈ ((splitSlash id.data).filter
          (fun s => ¬ s.isEmpty)).getLast? := by
        rw [hgl]; rfl
      obtain ⟨hne, hs⟩ := List.mem_getLast?_eq_getLast hmem1
      rw [hs]
      exact List.getLast_mem hne
    obtain ⟨hmem, hpred⟩ := List.mem_filter.mp hmem0
    refine ⟨splitSlash_no_slash id.data s hmem, ?_⟩
    intro hnil
    subst hnil
    simp at hpred

/-- `path.resolve` of an already-joined path equals itself rendered: the
data of the resolved join are the rendering of its segments. -/
theorem pathResolve_join_data (a b : String) :
    (pathResolve (pathJoin a b)).data
      = renderAbs (normStack (splitSlash b.data) (pathSegments a)) := by
  rw [pathResolve_data, pathSegments_join]

/-- C6: every `200` response of the media `GET` serves the basename of
the requested id joined to the audio directory, the resolved-path prefix
check passes, and the served path's normalized segments are the audio
directory's segments, possibly extended by one non-empty slash-free
segment — a file directly inside the audio directory, never outside it.
A traversal attempt `id=../../etc/passwd` is reduced to the basename
`passwd` and (that file not existing in the audio directory) receives
404. -/
theorem c6_media_route_path_safety (fs : String → Bool)
    (audioDir : String) (id : String) :
    ((mediaGET fs audioDir (some id)).status = 200 →
      (mediaGET fs audioDir (some id)).servedPath
        = some (pathJoin audioDir (pathBasename id))
      ∧ jsStartsWith (pathResolve (pathJoin audioDir (pathBasename id)))
          (pathResolve audioDir) = true
      ∧ (pathSegments (pathJoin audioDir (pathBasename id))
            = pathSegments audioDir
         ∨ ∃ s : List Char,
            pathSegments (pathJoin audioDir (pathBasename id))
              = pathSegments audioDir ++ [s]
            ∧ '/' ∉ s ∧ s ≠ []))
    ∧ (fs (pathJoin audioDir "passwd") = false →
      (mediaGET fs audioDir (some "../../etc/passwd")).status = 404) := by
  constructor
  · intro h200
    by_cases hid : id = ""
    · simp [mediaGET, hid] at h200
    · by_cases hfs : fs (pathJoin audioDir (pathBasename id)) = false
      · simp [mediaGET, hid, hfs] at h200
      · by_cases hguard : jsStartsWith
            (pathResolve (pathJoin audioDir (pathBasename id)))
            (pathResolve audioDir) = false
        · simp [mediaGET, hid, hfs, hguard] at h200
        · have hguard' : jsStartsWith
              (pathResolve (pathJoin audioDir (pathBasename id)))
              (pathResolve audioDir) = true := by
            cases h : jsStartsWith
                (pathResolve (pathJoin audioDir (pathBasename id)))
                (pathResolve audioDir)
            · exact absurd h hguard
            · rfl
          refine ⟨by simp [mediaGET, hid, hfs, hguard], hguard', ?_⟩
          have hDclean : ∀ s ∈ pathSegments audioDir, cleanSeg s :=
            normStack_clean (splitSlash audioDir.data) [] (by simp)
              (splitSlash_no_slash audioDir.data)
          rw [pathSegments_join]
          rcases pathBasename_cases id with hb | hb | hb
          · rw [hb]
            left
            show normStack (splitSlash ['/']) (pathSegments audioDir) = _
            rw [show splitSlash ['/'] = [[], []] by decide]
            simp [normStack]
          · rw [hb]
            left
            show normStack (splitSlash []) (pathSegments audioDir) = _
            rw [show splitSlash ([] : List Char) = [[]] by decide]
            simp [normStack]
          · obtain ⟨hfree, hne⟩ := hb
            rw [splitSlash_single _ hfree]
            by_cases hdot : (pathBasename id).data = ['.']
            · left
              rw [hdot]
              simp [normStack]
            · by_cases hdd : (pathBasename id).data = ['.', '.']
              · -- `..` pops a segment; the prefix check then fails unless
                -- the directory is the root, where popping is a no-op
                have hserved : normStack [['.', '.']]
                    (pathSegments audioDir)
                    = (pathSegments audioDir).dropLast := by
                  simp [normStack]
                by_cases hD : pathSegments audioDir = []
                · left
                  rw [hdd, hD]
                  decide
                · exfalso
                  have hlt := renderAbs_dropLast_length_lt
                    (pathSegments audioDir) hDclean hD
                  have hle := length_le_of_isPre
                    (pathResolve audioDir).data
                    (pathResolve (pathJoin audioDir (pathBasename id))).data
                    (by rw [← hguard']; rfl)
                  rw [pathResolve_join_data,
                    splitSlash_single _ hfree, hdd, hserved,
                    pathResolve_data] at hle
                  omega
              · right
                refine ⟨(pathBasename id).data, ?_, hfree, hne⟩
                have : normStack [(pathBasename id).data]
                    (pathSegments audioDir)
                    = pathSegments audioDir ++ [(pathBasename id).data] := by
                  simp [normStack, hne, hdot, hdd]
                exact this
  · intro hfs
    have hb : pathBasename "../../etc/passwd" = "passwd" := by decide
    simp [mediaGET, hb, hfs]

/-- C6 witness: an ordinary file request is served from inside the audio
directory, and the classic traversal attempt gets 404 when
`generated-audio/passwd` does not exist. -/
theorem c6_media_route_witness :
    ((mediaGET (fun _ => true) "/app/generated-audio"
        (some "x.mp3")).status = 200
      ∧ (mediaGET (fun _ => true) "/app/generated-audio"
          (some "x.mp3")).servedPath
        = some (pathJoin "/app/generated-audio" (pathBasename "x.mp3")))
    ∧ ((fun (_ : String) => false)
        (pathJoin "/app/generated-audio" "passwd") = false
      ∧ (mediaGET (fun _ => false) "/app/generated-audio"
          (some "../../etc/passwd")).status = 404) :=
  ⟨⟨by decide,
    ((c6_media_route_path_safety (fun _ => true) "/app/generated-audio"
      "x.mp3").1 (by decide)).1⟩,
   ⟨rfl,
    (c6_media_route_path_safety (fun _ => false) "/app/generated-audio"
      "../../etc/passwd").2 rfl⟩⟩

end Librairian
